import Mathlib

/-!
Verification development for the ScratchWorld control plane.

Shallow embedding of:
  * api/scratch_api.py        : composite-command dispatcher, index cache,
                                per-api argument-schema filtering
  * api/action_response.py    : action envelope builders
  * api/session_manager.py    : session pool (capacity eviction, TTL sweep,
                                get/delete)
  * core/coordinate_resize.py : UITarsResizer.smart_resize
  * core/element_fusion.py    : ElementFusion.fuse_elements

Python dicts are embedded as ordered association lists (Python dicts preserve
insertion order and have unique keys).  Machine integers are Int/Nat; the
real-valued steps of smart_resize are embedded with exact rational/real
semantics, expressed through integer square roots (the derivation is given at
the definition).
-/

/-! ## JSON-like values (Python dict/str/int/bool/None arguments) -/

mutual
/-- a Python value as passed in command argument maps -/
inductive JVal where
  | null : JVal
  | bool : Bool → JVal
  | int  : Int → JVal
  | str  : String → JVal
  | obj  : JFields → JVal
  deriving DecidableEq
/-- an ordered field list of a Python dict -/
inductive JFields where
  | nil  : JFields
  | cons : String → JVal → JFields → JFields
  deriving DecidableEq
end

/-- dict lookup, `d.get(key)`: first (unique) matching key -/
def jlookup : JFields → String → Option JVal
  | .nil, _ => none
  | .cons k v rest, key => if k = key then some v else jlookup rest key

/-- membership test `key in d` -/
def jmem (fs : JFields) (key : String) : Bool :=
  (jlookup fs key).isSome

/-- builds a JFields from a plain list (for readable literals) -/
def jfOf : List (String × JVal) → JFields
  | [] => .nil
  | (k, v) :: rest => .cons k v (jfOf rest)

/-- builds a JVal object from a plain list -/
def jobj (l : List (String × JVal)) : JVal := .obj (jfOf l)

/-- Python truthiness of an embedded value (`bool(v)`); an empty dict, empty
string, zero, False and None are falsy -/
def jtruthy : JVal → Bool
  | .null => false
  | .bool b => b
  | .int n => n ≠ 0
  | .str s => s ≠ ""
  | .obj .nil => false
  | .obj (.cons _ _ _) => true

/-- whether the value is a dict, `isinstance(v, dict)` -/
def jIsDict : JVal → Bool
  | .obj _ => true
  | _ => false

/-- ASCII whitespace stripped by Python `str.strip()` (the inputs here are
ASCII api names and block types) -/
def isPyWS (c : Char) : Bool := c = ' ' || c = '\t' || c = '\n' || c = '\r'

/-- embeds Python `s.strip()` over the character list -/
def pyStrip (s : String) : String :=
  .mk (((s.data.dropWhile isPyWS).reverse.dropWhile isPyWS).reverse)

/-! ## Per-api argument allowlist schema (scratch_api.py, `_COMPOSITE_CATALOG_ARG_SCHEMA`
and `_filter_args_by_schema` / `_sanitize_executed_args`) -/

mutual
/-- a schema value: `None` (leaf, any value allowed) or a nested dict of
permitted keys -/
inductive Schema where
  | leaf : Schema
  | node : SchemaFields → Schema
  deriving DecidableEq
/-- the ordered fields of a schema dict -/
inductive SchemaFields where
  | nil  : SchemaFields
  | cons : String → Schema → SchemaFields → SchemaFields
  deriving DecidableEq
end

/-- schema-dict lookup by key -/
def slookupF : SchemaFields → String → Option Schema
  | .nil, _ => none
  | .cons k s rest, key => if k = key then some s else slookupF rest key

/-- builds SchemaFields from a plain list (for readable literals) -/
def sfOf : List (String × Schema) → SchemaFields
  | [] => .nil
  | (k, s) :: rest => .cons k s (sfOf rest)

/-- the frozen `_COMPOSITE_CATALOG_ARG_SCHEMA` table of scratch_api.py -/
def compositeCatalogArgSchema : List (String × Schema) :=
  [ ("select_sprite", .node (sfOf [("name", .leaf)])),
    ("select_stage", .node .nil),
    ("add_variable", .node (sfOf [("name", .leaf), ("scope", .leaf)])),
    ("add_list", .node (sfOf [("name", .leaf), ("scope", .leaf)])),
    ("add_block", .node (sfOf
      [("blockType", .leaf),
       ("creation", .node (sfOf [("variableName", .leaf), ("listName", .leaf)]))])),
    ("connect_blocks", .node (sfOf
      [("sourceBlockIndex", .leaf),
       ("targetBlockIndex", .leaf),
       ("placement", .node (sfOf [("kind", .leaf), ("inputName", .leaf)]))])),
    ("detach_blocks", .node (sfOf [("blockIndex", .leaf)])),
    ("set_block_field", .node (sfOf
      [("blockIndex", .leaf), ("fieldName", .leaf), ("value", .leaf)])),
    ("delete_block", .node (sfOf [("blockIndex", .leaf)])),
    ("done", .node .nil),
    ("failed", .node .nil) ]

/-- catalog lookup (`_COMPOSITE_CATALOG_ARG_SCHEMA.get(name)`) -/
def catalogLookup : List (String × Schema) → String → Option Schema
  | [], _ => none
  | (k, s) :: rest, key => if k = key then some s else catalogLookup rest key

mutual
/-- embeds `_filter_args_by_schema(raw_args, schema)`: a non-dict schema
returns the raw value unchanged; a dict schema applied to a non-dict value
yields `{}`; otherwise the schema keys are walked in order and only keys
present in the raw dict are kept, recursing when both sides are dicts. -/
def filterArgsBySchema : Schema → JVal → JVal
  | .leaf, raw => raw
  | .node fields, .obj kvs => .obj (filterFieldsBySchema fields kvs)
  | .node _, _ => .obj .nil
/-- walks the schema's field list, keeping raw entries whose key is permitted -/
def filterFieldsBySchema : SchemaFields → JFields → JFields
  | .nil, _ => .nil
  | .cons k sub rest, kvs =>
    match jlookup kvs k with
    | none => filterFieldsBySchema rest kvs
    | some v =>
      match sub, v with
      | .node _, .obj _ => .cons k (filterArgsBySchema sub v) (filterFieldsBySchema rest kvs)
      | _, _ => .cons k v (filterFieldsBySchema rest kvs)
end

/-- embeds `_sanitize_executed_args(api_name, raw_args)`: non-dict args or an
api without a declared schema yield `{}` -/
def sanitizeExecutedArgs (apiName : String) (rawArgs : JVal) : JVal :=
  match rawArgs with
  | .obj _ =>
    match catalogLookup compositeCatalogArgSchema (pyStrip apiName) with
    | some s =>
      match s with
      | .node _ => filterArgsBySchema s rawArgs
      | .leaf => .obj .nil
    | none => .obj .nil
  | _ => .obj .nil

mutual
/-- schema conformance: at a leaf anything is allowed; at a dict schema a
dict value must draw all its keys from the schema and each entry must conform
to the matching sub-schema; a non-dict value carries no keys and conforms -/
def conformsTo : JVal → Schema → Bool
  | _, .leaf => true
  | .obj l, .node fs => conformsAll l fs
  | .null, .node _ => true
  | .bool _, .node _ => true
  | .int _, .node _ => true
  | .str _, .node _ => true
/-- every entry's key is declared and its value conforms to the sub-schema -/
def conformsAll : JFields → SchemaFields → Bool
  | .nil, _ => true
  | .cons k v rest, fs =>
    (match slookupF fs k with
     | some sub => conformsTo v sub
     | none => false) && conformsAll rest fs
end

/-- key present in a schema field list -/
def skeyMem (fs : SchemaFields) (k : String) : Bool :=
  (slookupF fs k).isSome

mutual
/-- every dict level of the schema has pairwise-distinct keys -/
def snodup : Schema → Bool
  | .leaf => true
  | .node fs => skeysDistinct fs && snodupChildren fs
/-- keys of one field list are distinct -/
def skeysDistinct : SchemaFields → Bool
  | .nil => true
  | .cons k _ rest => !(skeyMem rest k) && skeysDistinct rest
/-- every sub-schema is recursively duplicate-free -/
def snodupChildren : SchemaFields → Bool
  | .nil => true
  | .cons _ sub rest => snodup sub && snodupChildren rest
end

/-! ## Action envelope builders (action_response.py) -/

/-- embeds Python `str(v)` for the scalar values that reach it here; the
rendering of a dict is abstracted (no claim depends on it) -/
def pyStr : JVal → String
  | .str s => s
  | .int n => toString n
  | .bool b => if b then "True" else "False"
  | .null => "None"
  | .obj _ => "{...}"

/-- the normalized error object produced by `normalize_error`: always a dict
with string `code` and `message`, plus optional dict `details` -/
structure ErrObj where
  code : String
  message : String
  details : Option JFields
  deriving DecidableEq

/-- embeds `normalize_error(error)` -/
def normalizeError (error : JVal) : ErrObj :=
  match error with
  | .obj kvs =>
    { code := match jlookup kvs "code" with
        | some .null | none => "UNKNOWN_ERROR"
        | some v => pyStr v
      message := match jlookup kvs "message" with
        | some .null | none => "Unknown error"
        | some v => pyStr v
      details := match jlookup kvs "details" with
        | some (.obj d) => some d
        | _ => none }
  | .null => { code := "UNKNOWN_ERROR", message := "Unknown error", details := none }
  | v => { code := "UNKNOWN_ERROR", message := pyStr v, details := none }

/-- the normalized `{"api": str, "args": dict}` action record -/
structure ActionRec where
  api : String
  args : JFields
  deriving DecidableEq

/-- embeds `_normalize_action(action)` -/
def normalizeAction (action : JVal) : ActionRec :=
  match action with
  | .obj kvs =>
    { api := match jlookup kvs "api" with
        | some .null | none => ""
        | some v => pyStr v
      args := match jlookup kvs "args" with
        | some (.obj fs) => fs
        | _ => .nil }
  | _ => { api := "", args := .nil }

/-- the metadata block; the wall-clock readings of `build_meta` enter as the
`timestamp` and `durationMs` inputs -/
structure Meta where
  sessionId : Option String
  timestamp : String
  durationMs : Int
  deriving DecidableEq

/-- embeds `build_meta`: the duration is clamped at zero -/
def buildMeta (sessionId : Option String) (timestamp : String) (durationMs : Int) : Meta :=
  { sessionId := sessionId, timestamp := timestamp, durationMs := max 0 durationMs }

/-- the v2 action response envelope -/
structure Envelope where
  success : Bool
  requestedAction : ActionRec
  executedAction : ActionRec
  data : JVal
  error : Option ErrObj
  meta : Meta
  deriving DecidableEq

/-- coerces the payload to a dict, `dict(data) if isinstance(data, dict) else {}` -/
def coerceDataDict : JVal → JVal
  | .obj fs => .obj fs
  | _ => .obj .nil

/-- embeds `build_success_response`; `nowIso` is the clock reading used only
when no meta block is supplied -/
def buildSuccessResponse (nowIso : String) (requestedAction executedAction : JVal)
    (data : JVal) (meta : Option Meta) : Envelope :=
  { success := true
    requestedAction := normalizeAction requestedAction
    executedAction := normalizeAction executedAction
    data := coerceDataDict data
    error := none
    meta := meta.getD (buildMeta none nowIso 0) }

/-- embeds `build_error_response` -/
def buildErrorResponse (nowIso : String) (requestedAction executedAction : JVal)
    (error : JVal) (data : JVal) (meta : Option Meta) : Envelope :=
  { success := false
    requestedAction := normalizeAction requestedAction
    executedAction := normalizeAction executedAction
    data := coerceDataDict data
    error := some (normalizeError error)
    meta := meta.getD (buildMeta none nowIso 0) }

/-! ## Composite-command dispatcher and index cache (scratch_api.py, `ScratchAPI.execute`)

Only the cache-relevant subset of the dispatcher is embedded (the block-index
commands, `add_block`, and the two structure-describing commands); the other
branches of `execute` never touch `cached_idx_to_block` or
`cached_value_to_id_mappings`.  The engine-side JavaScript call is an oracle
parameter: on success the describe commands read the `idxToBlock` and
`valueToIdMappings` snapshots out of its payload.  Response envelopes are
projected to the success flag, the error code and the list of dispatched
scripts. -/

/-- the per-session mutable cache state of `ScratchAPI` -/
structure ApiState where
  cachedIdxToBlock : Option (List (String × String))
  cachedValueToIdMappings : Option (List (String × String))
  deriving DecidableEq

/-- outcome of one engine-side script evaluation -/
inductive EngineResult where
  | ok (idxToBlock : List (String × String)) (valueToIdMappings : List (String × String))
  | err (code : String) (message : String)
  deriving DecidableEq

/-- projection of the response envelope of one `execute` call -/
structure ExecResult where
  success : Bool
  errorCode : Option String
  dispatched : List String
  state : ApiState
  deriving DecidableEq

/-- success result -/
def mkOk (st : ApiState) (d : List String) : ExecResult :=
  { success := true, errorCode := none, dispatched := d, state := st }

/-- error result (the cache is untouched on every error path) -/
def mkErr (st : ApiState) (code : String) (d : List String) : ExecResult :=
  { success := false, errorCode := some code, dispatched := d, state := st }

/-- string-keyed lookup in a cached snapshot -/
def lookupStr : List (String × String) → String → Option String
  | [], _ => none
  | (k, v) :: rest, key => if k = key then some v else lookupStr rest key

/-- key-membership in a cached snapshot (`key in self.cached_idx_to_block`) -/
def keyMemS (m : List (String × String)) (k : String) : Bool :=
  (lookupStr m k).isSome

/-- embeds `isinstance(x, int) and x >= 1` on an optional argument
(`'blockIndex' must be a positive integer`); Python's bool-as-int corner is
not modeled -/
def posInt : Option JVal → Option Int
  | some (.int n) => if 1 ≤ n then some n else none
  | _ => none

/-- embeds `(args.get(key) or "")` followed by `.strip()`: a falsy value
becomes the empty string, a truthy non-string raises (AttributeError, caught
by the dispatcher's outer handler) -/
def strOrEmpty (v : Option JVal) : Except Unit String :=
  match v with
  | none => .ok ""
  | some v =>
    if jtruthy v then
      match v with
      | .str s => .ok s
      | _ => .error ()
    else .ok ""

/-- embeds `placement = args.get("placement") or {}` of the connect_blocks
branch: a falsy placement value becomes the empty dict -/
def placementOf (args : JFields) : JVal :=
  let p := (jlookup args "placement").getD .null
  if jtruthy p then p else .obj .nil

/-- embeds `placement.get(key) if isinstance(placement, dict) else None` -/
def placementField (args : JFields) (key : String) : JVal :=
  match placementOf args with
  | .obj pfs => (jlookup pfs key).getD .null
  | _ => .null

/-- embeds the cache-relevant branch structure of `ScratchAPI.execute`:
argument validation, then the index-cache gate (INVALID_STATE), then snapshot
index resolution (NOT_FOUND), then the engine dispatch; the structure-mutating
commands set `cached_idx_to_block = None` on their success path. -/
def executeApi (st : ApiState) (api0 : String) (args : JFields) (eng : EngineResult) : ExecResult :=
  let api := pyStrip api0
  if api = "" then mkErr st "INVALID_ARG" []
  else if api = "add_block" then
    match strOrEmpty (jlookup args "blockType") with
    | .error _ => mkErr st "RUNTIME_ERROR" []
    | .ok s =>
      if pyStrip s = "" then mkErr st "INVALID_ARG" []
      else
        match eng with
        | .ok _ _ => mkOk { st with cachedIdxToBlock := none } ["add_block"]
        | .err c _ => mkErr st c ["add_block"]
  else if api = "get_blocks_pseudocode" then
    match eng with
    | .ok idx vals => mkOk { cachedIdxToBlock := some idx, cachedValueToIdMappings := some vals } ["get_blocks_pseudocode"]
    | .err c _ => mkErr st c ["get_blocks_pseudocode"]
  else if api = "get_blocks_structure" then
    match eng with
    | .ok idx _ => mkOk { st with cachedIdxToBlock := some idx } ["get_blocks_structure"]
    | .err c _ => mkErr st c ["get_blocks_structure"]
  else if api = "set_block_field" then
    match posInt (jlookup args "blockIndex") with
    | none => mkErr st "INVALID_ARG" []
    | some blockIndex =>
      if !(jtruthy ((jlookup args "fieldName").getD .null)) then mkErr st "INVALID_ARG" []
      else if !(jmem args "value") then mkErr st "INVALID_ARG" []
      else
        match st.cachedIdxToBlock with
        | none => mkErr st "INVALID_STATE" []
        | some cache =>
          if !(keyMemS cache (toString blockIndex)) then mkErr st "NOT_FOUND" []
          else
            match eng with
            | .ok _ _ => mkOk st ["set_block_field"]
            | .err c _ => mkErr st c ["set_block_field"]
  else if api = "connect_blocks" then
    match posInt (jlookup args "sourceBlockIndex") with
    | none => mkErr st "INVALID_ARG" []
    | some srcIdx =>
      match posInt (jlookup args "targetBlockIndex") with
      | none => mkErr st "INVALID_ARG" []
      | some tgtIdx =>
        match placementOf args with
        | .obj pfs =>
          if !(jtruthy ((jlookup pfs "kind").getD .null)) then mkErr st "INVALID_ARG" []
          else if (((jlookup pfs "kind").getD .null == JVal.str "statement_into") ||
                   ((jlookup pfs "kind").getD .null == JVal.str "value_into")) &&
                  !(jtruthy ((jlookup pfs "inputName").getD .null)) then
            mkErr st "INVALID_ARG" []
          else
            match st.cachedIdxToBlock with
            | none => mkErr st "INVALID_STATE" []
            | some cache =>
              if !(keyMemS cache (toString srcIdx)) then mkErr st "NOT_FOUND" []
              else if !(keyMemS cache (toString tgtIdx)) then mkErr st "NOT_FOUND" []
              else
                match eng with
                | .ok _ _ => mkOk { st with cachedIdxToBlock := none } ["connect_blocks"]
                | .err c _ => mkErr st c ["connect_blocks"]
        | _ => mkErr st "INVALID_ARG" []
  else if api = "detach_blocks" then
    match posInt (jlookup args "blockIndex") with
    | none => mkErr st "INVALID_ARG" []
    | some blockIndex =>
      match st.cachedIdxToBlock with
      | none => mkErr st "INVALID_STATE" []
      | some cache =>
        if !(keyMemS cache (toString blockIndex)) then mkErr st "NOT_FOUND" []
        else
          match eng with
          | .ok _ _ => mkOk { st with cachedIdxToBlock := none } ["detach_blocks"]
          | .err c _ => mkErr st c ["detach_blocks"]
  else if api = "delete_block" then
    match posInt (if jmem args "blockIndex" then jlookup args "blockIndex" else jlookup args "index") with
    | none => mkErr st "INVALID_ARG" []
    | some blockIndex =>
      match st.cachedIdxToBlock with
      | none => mkErr st "INVALID_STATE" []
      | some cache =>
        if !(keyMemS cache (toString blockIndex)) then mkErr st "NOT_FOUND" []
        else
          match eng with
          | .ok _ _ => mkOk { st with cachedIdxToBlock := none } ["delete_block"]
          | .err c _ => mkErr st c ["delete_block"]
  else mkErr st "UNSUPPORTED" []

/-- the four index-addressed composite commands -/
def isIndexAddressed (api : String) : Prop :=
  pyStrip api = "set_block_field" ∨ pyStrip api = "connect_blocks" ∨
  pyStrip api = "detach_blocks" ∨ pyStrip api = "delete_block"

/-- the four structure-mutating composite commands -/
def isStructureMutating (api : String) : Prop :=
  pyStrip api = "add_block" ∨ pyStrip api = "connect_blocks" ∨
  pyStrip api = "detach_blocks" ∨ pyStrip api = "delete_block"

/-- argument validation passes for an index-addressed command (the checks that
precede the cache gate in `execute`) -/
def indexArgsOk (api : String) (args : JFields) : Prop :=
  (pyStrip api = "set_block_field" →
    (posInt (jlookup args "blockIndex")).isSome = true ∧
    jtruthy ((jlookup args "fieldName").getD .null) = true ∧
    jmem args "value" = true) ∧
  (pyStrip api = "connect_blocks" →
    (posInt (jlookup args "sourceBlockIndex")).isSome = true ∧
    (posInt (jlookup args "targetBlockIndex")).isSome = true ∧
    jIsDict (placementOf args) = true ∧
    jtruthy (placementField args "kind") = true ∧
    (((placementField args "kind" == JVal.str "statement_into") ||
      (placementField args "kind" == JVal.str "value_into")) &&
     !(jtruthy (placementField args "inputName"))) = false) ∧
  (pyStrip api = "detach_blocks" → (posInt (jlookup args "blockIndex")).isSome = true) ∧
  (pyStrip api = "delete_block" →
    (posInt (if jmem args "blockIndex" then jlookup args "blockIndex" else jlookup args "index")).isSome = true)

instance (api : String) : Decidable (isIndexAddressed api) := by
  unfold isIndexAddressed; infer_instance

instance (api : String) : Decidable (isStructureMutating api) := by
  unfold isStructureMutating; infer_instance

instance (api : String) (args : JFields) : Decidable (indexArgsOk api args) := by
  unfold indexArgsOk; infer_instance

/-- the snapshot indices an index-addressed command resolves (keys looked up
in `cached_idx_to_block`) -/
def referencedIndices (api : String) (args : JFields) : List Int :=
  if pyStrip api = "set_block_field" ∨ pyStrip api = "detach_blocks" then
    (posInt (jlookup args "blockIndex")).toList
  else if pyStrip api = "delete_block" then
    (posInt (if jmem args "blockIndex" then jlookup args "blockIndex" else jlookup args "index")).toList
  else if pyStrip api = "connect_blocks" then
    (posInt (jlookup args "sourceBlockIndex")).toList ++ (posInt (jlookup args "targetBlockIndex")).toList
  else []

/-! ## Session pool manager (session_manager.py)

The pool (`self._sessions`) is an insertion-ordered association list of
(session id, last-used timestamp); time is an integer-valued clock passed in
at each call.  Only the bookkeeping state is embedded; the browser
context/page owned by a session is external I/O. -/

/-- comparison key of the eviction sort, `key=lambda x: x[1].last_used_at` -/
def lastUsedLE (a b : String × Int) : Prop := a.2 ≤ b.2

instance : DecidableRel lastUsedLE := fun a b => inferInstanceAs (Decidable (a.2 ≤ b.2))

instance : IsTotal (String × Int) lastUsedLE := ⟨fun a b => le_total a.2 b.2⟩

instance : IsTrans (String × Int) lastUsedLE := ⟨fun _ _ _ h1 h2 => le_trans h1 h2⟩

/-- embeds `_cleanup_expired_locked`: with a positive TTL, drops every session
whose idle time strictly exceeds it -/
def cleanupExpired (ttl now : Int) (pool : List (String × Int)) : List (String × Int) :=
  if ttl ≤ 0 then pool
  else pool.filter (fun s => !(decide (ttl < now - s.2)))

/-- embeds `_delete_oldest_sessions_locked(num_to_delete)`: sorts by last-used
time (Python's `sorted` is stable, as is insertion sort, so the two agree
exactly) and pops the first `num_to_delete` session ids -/
def deleteOldestSessions (numToDelete : Int) (pool : List (String × Int)) : List (String × Int) :=
  if numToDelete ≤ 0 ∨ pool = [] then pool
  else
    pool.filter (fun s =>
      !(decide (s.1 ∈ ((List.insertionSort lastUsedLE pool).take numToDelete.toNat).map Prod.fst)))

/-- embeds the pool-state effect of `create_session`: expiry sweep, then
capacity eviction when at or over the limit, then insertion of the fresh
session (its `last_used_at` defaults to the current time) -/
def createSession (maxSessions ttl now : Int) (newSid : String) (pool : List (String × Int)) :
    List (String × Int) :=
  let p1 := cleanupExpired ttl now pool
  let p2 := if maxSessions ≤ (p1.length : Int) then
      deleteOldestSessions ((p1.length : Int) - maxSessions + 1) p1
    else p1
  p2 ++ [(newSid, now)]

/-- embeds `get_session`: expiry sweep, then lookup; on success the session's
last-used time is set to the current time -/
def getSession (ttl now : Int) (sid : String) (pool : List (String × Int)) :
    Option (List (String × Int)) :=
  let p := cleanupExpired ttl now pool
  if p.any (fun s => s.1 = sid) then
    some (p.map (fun s => if s.1 = sid then (s.1, now) else s))
  else none

/-- observable steps of `delete_session`, in program order -/
inductive DelEvent where
  | popSession
  | finalizeRecording
  | closeContext
  deriving DecidableEq

/-- embeds a `try: ... except Exception: pass` block: the outcome of the
attempted operation is discarded -/
def swallowOutcome {α : Type} (outcome : Except String Unit) (a : α) : α := a

/-- embeds `delete_session`: the entry is popped from the pool map first
(under the lock); an absent id raises; otherwise recording finalization and
the context close run inside exception-swallowing handlers and the call
returns status "closed" regardless of their outcomes -/
def deleteSession (pool : List (String × Int)) (sid : String) (isRecording : Bool)
    (finalizeOutcome closeOutcome : Except String Unit) :
    Except String (List (String × Int) × String) × List DelEvent :=
  let found := pool.any (fun s => s.1 = sid)
  let remaining := pool.filter (fun s => !(decide (s.1 = sid)))
  if found then
    (swallowOutcome finalizeOutcome (swallowOutcome closeOutcome (.ok (remaining, "closed"))),
     [DelEvent.popSession] ++ (if isRecording then [DelEvent.finalizeRecording] else []) ++
       [DelEvent.closeContext])
  else
    (.error ("Session not found: " ++ sid), [DelEvent.popSession])

/-! ## Tile-constrained resize (coordinate_resize.py, `UITarsResizer.smart_resize`)

The module constants: factor 28, min budget 100·28·28 = 78400, max budget
16384·28·28 = 12845056, max aspect 200.  The algorithm's real-valued steps are
embedded with exact arithmetic:

  * `round(number / factor)` is Python's banker's rounding of the exact
    rational `number/factor` (`roundHalfEvenDiv`);
  * in the shrink branch, `beta = sqrt(h·w/max)` so
    `floor_by_factor(h/beta, 28) = 28·⌊√(h·max/w)/28⌋ = 28·⌊√(h·max/(784·w))⌋
    = 28·Nat.sqrt (h·max/(784·w))` using `⌊√x⌋ = ⌊√⌊x⌋⌋` and
    `⌊(h·max/w)/784⌋ = ⌊h·max/(784·w)⌋`;
  * in the grow branch `ceil_by_factor(h·beta, 28) = 28·⌈√(h·min/(784·w))⌉ =
    28·csqrt (⌈h·min/(784·w)⌉)` using `⌈√x⌉ = ⌈√⌈x⌉⌉`. -/

/-- the tile factor, `IMAGE_FACTOR = 28` -/
def imageFactor : Nat := 28

/-- the minimum pixel budget, `MIN_PIXELS = 100 * 28 * 28` -/
def minPixels : Nat := 100 * 28 * 28

/-- the maximum pixel budget, `MAX_PIXELS = 16384 * 28 * 28` -/
def maxPixels : Nat := 16384 * 28 * 28

/-- the maximum aspect ratio, 200 -/
def maxAspect : Nat := 200

/-- Python `round(n / f)` (round-half-to-even) of the exact rational `n/f` -/
def roundHalfEvenDiv (n f : Nat) : Nat :=
  let q := n / f
  let r := n % f
  if 2 * r < f then q
  else if f < 2 * r then q + 1
  else if q % 2 = 0 then q else q + 1

/-- embeds `_round_by_factor` -/
def roundByFactor (n f : Nat) : Nat := roundHalfEvenDiv n f * f

/-- ceiling division -/
def ceilDiv (a b : Nat) : Nat := (a + b - 1) / b

/-- ceiling integer square root: the least `k` with `n ≤ k²` -/
def csqrt (n : Nat) : Nat :=
  if Nat.sqrt n * Nat.sqrt n = n then Nat.sqrt n else Nat.sqrt n + 1

/-- embeds `UITarsResizer.smart_resize(height, width)` at the module's default
constants, returning `(new_height, new_width)` or the raised ValueError -/
def smartResize (height width : Int) : Except String (Int × Int) :=
  if height ≤ 0 ∨ width ≤ 0 then .error "Invalid dimensions"
  else
    let h := height.toNat
    let w := width.toNat
    if maxAspect * min h w < max h w then
      .error "Absolute aspect ratio must be smaller than 200"
    else
      let hbar := max imageFactor (roundByFactor h imageFactor)
      let wbar := max imageFactor (roundByFactor w imageFactor)
      if maxPixels < hbar * wbar then
        .ok ((28 * Nat.sqrt (h * maxPixels / (784 * w)) : Nat),
             (28 * Nat.sqrt (w * maxPixels / (784 * h)) : Nat))
      else if hbar * wbar < minPixels then
        .ok ((28 * csqrt (ceilDiv (h * minPixels) (784 * w)) : Nat),
             (28 * csqrt (ceilDiv (w * minPixels) (784 * h)) : Nat))
      else
        .ok ((hbar : Nat), (wbar : Nat))

/-! ## Element perception fusion (element_fusion.py, `ElementFusion.fuse_elements`) -/

/-- a bounding box in real screen coordinates -/
structure BBox where
  x : Int
  y : Int
  w : Int
  h : Int
  deriving DecidableEq

/-- a structural (DOM) element as delivered by the batch API; only the fields
read by the fusion step are carried -/
structure DomElem where
  id : String
  position : BBox
  text : String
  etype : String
  blockName : String
  deriving DecidableEq

/-- a perceptual (OCR) element as delivered by the OCR server -/
structure OcrElem where
  x : Int
  y : Int
  w : Int
  h : Int
  text : String
  confidence : ℚ
  elementType : String
  deriving DecidableEq

/-- the unified element structure produced by normalization (the bookkeeping
metadata sub-dicts of the Python dict are omitted) -/
structure FusedElem where
  id : String
  source : String
  bbox : BBox
  text : String
  etype : String
  interactable : Bool
  domConf : ℚ
  ocrConf : ℚ
  blockName : String
  deriving DecidableEq

/-- embeds `_is_interactable_type` -/
def isInteractableType (t : String) : Bool :=
  t = "clickable" || t = "green_flag" || t = "stop_button" || t = "inputs" ||
  t = "sprites" || t = "blocks" || t = "flyout_buttons" || t = "category_menu_item"

/-- embeds `_normalize_dom_elements` for one element; the trailing
`**`-spread of the original dict wins for the `text` key, so the original
(unstripped) text is kept -/
def normalizeDomElem (e : DomElem) : FusedElem :=
  { id := e.id
    source := "dom"
    bbox := e.position
    text := e.text
    etype := e.etype
    interactable := isInteractableType e.etype
    domConf := 1
    ocrConf := 0
    blockName := e.blockName }

/-- embeds `_normalize_dom_elements` -/
def normalizeDomElements (dom : List DomElem) : List FusedElem :=
  dom.map normalizeDomElem

/-- embeds `_normalize_ocr_elements`: drops elements below the confidence
threshold; kept elements are numbered `ocr_<n>` by their position among the
kept -/
def normalizeOcrElements (minConf : ℚ) : List OcrElem → Nat → List FusedElem
  | [], _ => []
  | e :: rest, n =>
    if minConf ≤ e.confidence then
      { id := "ocr_" ++ toString n
        source := "ocr"
        bbox := ⟨e.x, e.y, e.w, e.h⟩
        text := pyStrip e.text
        etype := e.elementType
        interactable := false
        domConf := 0
        ocrConf := e.confidence
        blockName := "" } :: normalizeOcrElements minConf rest (n + 1)
    else normalizeOcrElements minConf rest n

/-- embeds `_ocr_to_text_element`: the element is retyped as generic text -/
def ocrToTextElement (e : FusedElem) : FusedElem :=
  { e with etype := "text", interactable := false }

/-- embeds `_bbox_covers(outer, inner)`: containment with non-strict
inequalities on all four edges -/
def bboxCovers (outer inner : BBox) : Bool :=
  decide (outer.x ≤ inner.x) && decide (outer.y ≤ inner.y) &&
  decide (inner.x + inner.w ≤ outer.x + outer.w) &&
  decide (inner.y + inner.h ≤ outer.y + outer.h)

/-- pattern is a prefix of the character list -/
def leadsWith : List Char → List Char → Bool
  | [], _ => true
  | _ :: _, [] => false
  | p :: ps, c :: cs => p = c && leadsWith ps cs

/-- pattern occurs somewhere in the character list -/
def hasSubstrChars (pat : List Char) : List Char → Bool
  | [] => leadsWith pat []
  | c :: cs => leadsWith pat (c :: cs) || hasSubstrChars pat cs

/-- embeds `block_name.find('on canvas') != -1` -/
def containsOnCanvas (s : String) : Bool :=
  hasSubstrChars "on canvas".data s.data

/-- fusion configuration (`ElementFusion.__init__`) -/
structure FusionConfig where
  enableOcr : Bool
  ocrMinConfidence : ℚ
  hideCoveredOcrOnCanvas : Bool
  deriving DecidableEq

/-- whether a DOM element hides the OCR elements it covers: elements whose
block name does not contain "on canvas" always hide; "on canvas" elements
hide only when the feature switch is on -/
def shouldHideCovered (cfg : FusionConfig) (d : FusedElem) : Bool :=
  if containsOnCanvas d.blockName then cfg.hideCoveredOcrOnCanvas else true

/-- indices (from `i0`) of the OCR elements covered by the box -/
def coveredIndicesFrom (outer : BBox) : List FusedElem → Nat → List Nat
  | [], _ => []
  | o :: rest, i => (if bboxCovers outer o.bbox then [i] else []) ++ coveredIndicesFrom outer rest (i + 1)

/-- embeds `_find_covered_ocr_elements`: covered indices not already claimed -/
def findCoveredOcrElements (d : FusedElem) (ocr : List FusedElem) (already : List Nat) : List Nat :=
  (coveredIndicesFrom d.bbox ocr 0).filter (fun i => !(decide (i ∈ already)))

/-- the covered-index accumulation loop of `fuse_elements`: canvas-typed DOM
elements never suppress; the rest suppress subject to `shouldHideCovered` -/
def computeCoveredIndices (cfg : FusionConfig) (doms ocr : List FusedElem) : List Nat :=
  doms.foldl
    (fun covered d =>
      if d.etype = "canvas" then covered
      else if shouldHideCovered cfg d then covered ++ findCoveredOcrElements d ocr covered
      else covered)
    []

/-- the OCR elements whose index was not claimed, retyped as text, in order -/
def uncoveredOcrFrom : List FusedElem → List Nat → Nat → List FusedElem
  | [], _, _ => []
  | o :: rest, cov, i =>
    (if decide (i ∈ cov) then [] else [ocrToTextElement o]) ++ uncoveredOcrFrom rest cov (i + 1)

/-- embeds `ElementFusion.fuse_elements` -/
def fuseElements (cfg : FusionConfig) (dom : List DomElem) (ocr : List OcrElem) : List FusedElem :=
  if !cfg.enableOcr || ocr.isEmpty then normalizeDomElements dom
  else
    let nd := normalizeDomElements dom
    let no := normalizeOcrElements cfg.ocrMinConfidence ocr 0
    let covered := computeCoveredIndices cfg nd no
    nd ++ uncoveredOcrFrom no covered 0

/-- one DOM element suppresses one OCR element: not canvas-typed, hiding
enabled for it, and its box covers the OCR box -/
def suppressesElem (cfg : FusionConfig) (d o : FusedElem) : Bool :=
  !(decide (d.etype = "canvas")) && shouldHideCovered cfg d && bboxCovers d.bbox o.bbox

/-! ### Lemmas: schema filtering produces schema-conforming output -/

theorem snodup_of_children : ∀ (fs : SchemaFields) (k : String) (s : Schema),
    slookupF fs k = some s → snodupChildren fs = true → snodup s = true
  | .nil, k, s, hl, _ => by simp [slookupF] at hl
  | .cons k' s' rest, k, s, hl, hch => by
    simp only [snodupChildren, Bool.and_eq_true] at hch
    simp only [slookupF] at hl
    by_cases hk : k' = k
    · rw [if_pos hk] at hl
      cases hl
      exact hch.1
    · rw [if_neg hk] at hl
      exact snodup_of_children rest k s hl hch.2

theorem conformsTo_obj_nil (s : Schema) : conformsTo (.obj .nil) s = true := by
  cases s <;> rfl

theorem conformsTo_leaf (v : JVal) : conformsTo v .leaf = true := by
  cases v <;> rfl

mutual
theorem conformsTo_filterArgs (s : Schema) (raw : JVal) (h : snodup s = true) :
    conformsTo (filterArgsBySchema s raw) s = true :=
  match s, raw with
  | .leaf, v => conformsTo_leaf (filterArgsBySchema .leaf v)
  | .node fs, .obj kvs => by
    simp only [snodup, Bool.and_eq_true] at h
    simp only [filterArgsBySchema, conformsTo]
    exact conformsAll_filterFields fs fs kvs (fun _ _ hk => hk) h.1 h.2
  | .node fs, .null => rfl
  | .node fs, .bool _ => rfl
  | .node fs, .int _ => rfl
  | .node fs, .str _ => rfl

theorem conformsAll_filterFields (FS fs : SchemaFields) (kvs : JFields)
    (hsub : ∀ k s, slookupF fs k = some s → slookupF FS k = some s)
    (hdk : skeysDistinct fs = true)
    (hch : snodupChildren fs = true) :
    conformsAll (filterFieldsBySchema fs kvs) FS = true :=
  match fs with
  | .nil => rfl
  | .cons k sub rest => by
    simp only [skeysDistinct, Bool.and_eq_true] at hdk
    simp only [snodupChildren, Bool.and_eq_true] at hch
    have hmemk : slookupF rest k = none := by
      cases hr : slookupF rest k with
      | none => rfl
      | some s' =>
        have := hdk.1
        simp [skeyMem, hr] at this
    have hsub' : ∀ k' s', slookupF rest k' = some s' → slookupF FS k' = some s' := by
      intro k' s' hl
      apply hsub k' s'
      simp only [slookupF]
      by_cases hkk : k = k'
      · subst hkk; rw [hmemk] at hl; cases hl
      · rw [if_neg hkk]; exact hl
    have hhead : slookupF FS k = some sub := by
      apply hsub k sub
      simp [slookupF]
    simp only [filterFieldsBySchema]
    cases hv : jlookup kvs k with
    | none =>
      exact conformsAll_filterFields FS rest kvs hsub' hdk.2 hch.2
    | some v =>
      match sub, v with
      | .node nfs, .obj okvs =>
        simp only [conformsAll, hhead, Bool.and_eq_true]
        exact ⟨conformsTo_filterArgs (.node nfs) (.obj okvs) hch.1,
               conformsAll_filterFields FS rest kvs hsub' hdk.2 hch.2⟩
      | .leaf, v =>
        simp only [conformsAll, hhead, conformsTo, Bool.true_and]
        exact conformsAll_filterFields FS rest kvs hsub' hdk.2 hch.2
      | .node nfs, .null =>
        simp only [conformsAll, hhead, conformsTo, Bool.true_and]
        exact conformsAll_filterFields FS rest kvs hsub' hdk.2 hch.2
      | .node nfs, .bool b =>
        simp only [conformsAll, hhead, conformsTo, Bool.true_and]
        exact conformsAll_filterFields FS rest kvs hsub' hdk.2 hch.2
      | .node nfs, .int n =>
        simp only [conformsAll, hhead, conformsTo, Bool.true_and]
        exact conformsAll_filterFields FS rest kvs hsub' hdk.2 hch.2
      | .node nfs, .str s' =>
        simp only [conformsAll, hhead, conformsTo, Bool.true_and]
        exact conformsAll_filterFields FS rest kvs hsub' hdk.2 hch.2
end

theorem snodup_of_catalogLookup (l : List (String × Schema)) (k : String) (s : Schema)
    (hl : catalogLookup l k = some s)
    (hall : (l.all fun p => snodup p.2) = true) : snodup s = true := by
  induction l with
  | nil => simp [catalogLookup] at hl
  | cons p rest ih =>
    simp only [List.all_cons, Bool.and_eq_true] at hall
    simp only [catalogLookup] at hl
    by_cases hk : p.1 = k
    · rw [if_pos hk] at hl; cases hl; exact hall.1
    · rw [if_neg hk] at hl; exact ih hl hall.2

theorem catalog_all_snodup :
    (compositeCatalogArgSchema.all fun p => snodup p.2) = true := by decide

/-! ## Claim C7 -/

/-- C7: for every composite api name and every raw argument value, the
sanitized `executed_action.args` conforms to the api's declared allowlist
schema — recursively, every dict level draws its keys from the schema — and
an api with no declared schema (or non-dict raw args) yields the empty map. -/
theorem C7_executed_args_schema_filtered (apiName : String) (rawArgs : JVal) :
    (∀ s, catalogLookup compositeCatalogArgSchema (pyStrip apiName) = some s →
      conformsTo (sanitizeExecutedArgs apiName rawArgs) s = true) ∧
    (catalogLookup compositeCatalogArgSchema (pyStrip apiName) = none →
      sanitizeExecutedArgs apiName rawArgs = JVal.obj .nil) := by
  constructor
  · intro s hs
    have hnod : snodup s = true :=
      snodup_of_catalogLookup compositeCatalogArgSchema (pyStrip apiName) s hs catalog_all_snodup
    cases rawArgs with
    | obj kvs =>
      simp only [sanitizeExecutedArgs, hs]
      cases s with
      | leaf => exact conformsTo_obj_nil .leaf
      | node fs => exact conformsTo_filterArgs (.node fs) (.obj kvs) hnod
    | null => exact conformsTo_obj_nil s
    | bool b => exact conformsTo_obj_nil s
    | int n => exact conformsTo_obj_nil s
    | str s' => exact conformsTo_obj_nil s
  · intro h
    cases rawArgs <;> simp [sanitizeExecutedArgs, h]

/-- witness for C7 at a concrete call: an undeclared key is dropped for
`set_block_field`, and an unknown api yields the empty map -/
theorem C7_executed_args_schema_filtered_witness :
    conformsTo (sanitizeExecutedArgs "set_block_field"
        (jobj [("blockIndex", .int 1), ("fieldName", .str "VARIABLE"),
               ("value", .str "score"), ("secret", .str "leak")]))
      (Schema.node (sfOf [("blockIndex", .leaf), ("fieldName", .leaf), ("value", .leaf)])) = true ∧
    sanitizeExecutedArgs "mystery_api" (jobj [("a", .int 1)]) = JVal.obj .nil :=
  ⟨(C7_executed_args_schema_filtered "set_block_field"
      (jobj [("blockIndex", .int 1), ("fieldName", .str "VARIABLE"),
             ("value", .str "score"), ("secret", .str "leak")])).1
      (Schema.node (sfOf [("blockIndex", .leaf), ("fieldName", .leaf), ("value", .leaf)]))
      (by decide),
   (C7_executed_args_schema_filtered "mystery_api" (jobj [("a", .int 1)])).2 (by decide)⟩

/-! ## Claim C6 -/

/-- a concrete error envelope (the failed `add_block` argument check) used to
test the claimed success/data biconditional -/
def c6ErrEnvelope : Envelope :=
  buildErrorResponse "2026-01-01T00:00:00Z"
    (jobj [("api", .str "add_block"), ("args", jobj [])])
    (jobj [("api", .str "add_block"), ("args", jobj [])])
    (jobj [("code", .str "INVALID_ARG"), ("message", .str "'blockType' is required")])
    (jobj []) (some (buildMeta (some "s1") "2026-01-01T00:00:00Z" 5))

/-- C6 counterexample: on a failure envelope `success` is False while the
`data` field is still a dict (the empty dict), so the claimed chain
"success == True iff error is None iff data is a dict" fails at its second
link. -/
theorem C6_counterexample :
    ¬((c6ErrEnvelope.success = true) ↔ (jIsDict c6ErrEnvelope.data = true)) := by
  decide

/-- C6 (amended): over every envelope produced by the builders,
`success == True` iff `error is None`; the `data` field is always a dict (on
failure it is the empty dict unless a payload is passed explicitly); on
failure `error` is always the normalized object carrying string `code` and
`message`. -/
theorem C6_envelope_success_error_consistency
    (nowIso : String) (reqA exeA data err : JVal) (meta : Option Meta) :
    ((buildSuccessResponse nowIso reqA exeA data meta).success = true ↔
      (buildSuccessResponse nowIso reqA exeA data meta).error = none) ∧
    jIsDict (buildSuccessResponse nowIso reqA exeA data meta).data = true ∧
    ((buildErrorResponse nowIso reqA exeA err data meta).success = true ↔
      (buildErrorResponse nowIso reqA exeA err data meta).error = none) ∧
    jIsDict (buildErrorResponse nowIso reqA exeA err data meta).data = true ∧
    (buildErrorResponse nowIso reqA exeA err data meta).error = some (normalizeError err) := by
  refine ⟨by simp [buildSuccessResponse], ?_, ?_, ?_, by simp [buildErrorResponse]⟩
  · cases data <;> simp [buildSuccessResponse, coerceDataDict, jIsDict]
  · simp [buildErrorResponse]
  · cases data <;> simp [buildErrorResponse, coerceDataDict, jIsDict]

/-! ## Claim C10 -/

/-- C10: `delete_session` pops the entry from the pool map first; a present
id always yields status "closed" with the entry removed, for every outcome of
the recording finalization and the context close (their failures are
swallowed); only an absent id makes the call fail. -/
theorem C10_delete_session_swallows_cleanup_failures
    (pool : List (String × Int)) (sid : String) (isRecording : Bool)
    (finalizeOutcome closeOutcome : Except String Unit) :
    (pool.any (fun s => s.1 = sid) = true →
      (deleteSession pool sid isRecording finalizeOutcome closeOutcome).1 =
        .ok (pool.filter (fun s => !(decide (s.1 = sid))), "closed") ∧
      (deleteSession pool sid isRecording finalizeOutcome closeOutcome).2.head? =
        some DelEvent.popSession) ∧
    (pool.any (fun s => s.1 = sid) = false →
      (deleteSession pool sid isRecording finalizeOutcome closeOutcome).1 =
        .error ("Session not found: " ++ sid)) := by
  constructor
  · intro h
    simp [deleteSession, h, swallowOutcome]
  · intro h
    simp [deleteSession, h]

/-- witness for C10: deletion returns "closed" even when both the recording
flush and the context close fail; deleting a missing id fails -/
theorem C10_delete_session_witness :
    (deleteSession [("a", (0 : Int))] "a" true (.error "flush failed") (.error "close failed")).1 =
      .ok ([("a", (0 : Int))].filter (fun s => !(decide (s.1 = "a"))), "closed") ∧
    (deleteSession [] "missing" false (.ok ()) (.ok ())).1 =
      .error ("Session not found: " ++ "missing") :=
  ⟨((C10_delete_session_swallows_cleanup_failures [("a", (0 : Int))] "a" true
      (.error "flush failed") (.error "close failed")).1 (by decide)).1,
   (C10_delete_session_swallows_cleanup_failures [] "missing" false
      (.ok ()) (.ok ())).2 (by decide)⟩

/-! ## Claim C5 -/

/-- C5: with a positive TTL, a sweep removes exactly the sessions whose idle
time strictly exceeds the TTL; a successful `get` sets the session's
last-used time to the current time; hence a sweep within TTL of the `get`
still finds the session (activity defers expiry). -/
theorem C5_sliding_ttl (ttl now : Int) (pool : List (String × Int)) (sid : String) :
    (0 < ttl →
      ∀ s : String × Int, s ∈ cleanupExpired ttl now pool ↔ (s ∈ pool ∧ now - s.2 ≤ ttl)) ∧
    (∀ pool', getSession ttl now sid pool = some pool' →
      (sid, now) ∈ pool' ∧ ∀ p ∈ pool', p.1 = sid → p.2 = now) ∧
    (0 < ttl → ∀ pool' t', getSession ttl now sid pool = some pool' →
      t' - now ≤ ttl → ∃ p ∈ cleanupExpired ttl t' pool', p.1 = sid ∧ p.2 = now) := by
  have hmem : ∀ t n (q : List (String × Int)) (s : String × Int), 0 < t →
      (s ∈ cleanupExpired t n q ↔ (s ∈ q ∧ n - s.2 ≤ t)) := by
    intro t n q s ht
    simp only [cleanupExpired, if_neg (not_le.mpr ht), List.mem_filter,
      Bool.not_eq_eq_eq_not, Bool.not_true, decide_eq_false_iff_not, not_lt]
  have hget : ∀ pool', getSession ttl now sid pool = some pool' →
      (sid, now) ∈ pool' ∧ ∀ p ∈ pool', p.1 = sid → p.2 = now := by
    intro pool' h
    simp only [getSession] at h
    split at h
    case isTrue hc =>
      obtain ⟨s, hs, hsid⟩ := List.any_eq_true.mp hc
      simp only [decide_eq_true_eq] at hsid
      cases h
      constructor
      · refine List.mem_map.mpr ⟨s, hs, ?_⟩
        rw [if_pos hsid, hsid]
      · intro p hp hpid
        obtain ⟨q, hq, hqeq⟩ := List.mem_map.mp hp
        by_cases hqs : q.1 = sid
        · rw [if_pos hqs] at hqeq
          rw [← hqeq]
        · rw [if_neg hqs] at hqeq
          rw [← hqeq] at hpid
          exact absurd hpid hqs
    case isFalse => cases h
  refine ⟨fun ht s => hmem ttl now pool s ht, hget, ?_⟩
  intro ht pool' t' h hwithin
  obtain ⟨hin, _⟩ := hget pool' h
  exact ⟨(sid, now), (hmem ttl t' pool' (sid, now) ht).mpr ⟨hin, by simpa using hwithin⟩,
    rfl, rfl⟩

/-- witness for C5: with TTL 100 a `get` at time 150 re-stamps the session to
150, and the sweep at time 250 (within TTL of the `get`) still finds it -/
theorem C5_sliding_ttl_witness :
    (("a", (150 : Int)) ∈ [("a", (150 : Int))] ∧
      ∀ p ∈ [("a", (150 : Int))], p.1 = "a" → p.2 = 150) ∧
    (∃ p ∈ cleanupExpired 100 250 [("a", (150 : Int))], p.1 = "a" ∧ p.2 = 150) :=
  ⟨(C5_sliding_ttl 100 150 [("a", 90)] "a").2.1 [("a", 150)] (by decide),
   (C5_sliding_ttl 100 150 [("a", 90)] "a").2.2 (by decide) [("a", 150)] 250
     (by decide) (by decide)⟩

/-! ## Claim C3 -/

theorem deleteOldestSessions_of_le_length (k : Int) (p : List (String × Int))
    (hk0 : 0 < k) (hk : p.length ≤ k.toNat) :
    deleteOldestSessions k p = [] := by
  cases p with
  | nil => simp [deleteOldestSessions]
  | cons a rest =>
    rw [deleteOldestSessions, if_neg (by simp [not_le.mpr hk0])]
    rw [List.filter_eq_nil_iff]
    intro s hs
    have hperm := List.perm_insertionSort lastUsedLE (a :: rest)
    have hsort : s ∈ List.insertionSort lastUsedLE (a :: rest) := hperm.mem_iff.mpr hs
    have hlen : (List.insertionSort lastUsedLE (a :: rest)).length ≤ k.toNat := by
      rw [hperm.length_eq]; exact hk
    have htake : (List.insertionSort lastUsedLE (a :: rest)).take k.toNat =
        List.insertionSort lastUsedLE (a :: rest) := List.take_of_length_le hlen
    simp only [htake, Bool.not_eq_true', decide_eq_false_iff_not, Decidable.not_not]
    exact List.mem_map.mpr ⟨s, hsort, rfl⟩

/-- C3 counterexample: with capacity configured as 0 and one live session,
`create` evicts the existing session and still allocates the new one — it
does not fail, and no RESOURCE_EXHAUSTED error exists on this path. -/
theorem C3_counterexample :
    createSession 0 900 100 "new" [("old", 50)] = [("new", 100)] := by decide

/-- C3 (amended): `create` never rejects the caller for capacity reasons at
any configured capacity: the new session is always allocated; when the
capacity is zero or negative it evicts every live session and the pool ends
holding exactly the new session (so the configured capacity is exceeded by
one, rather than a RESOURCE_EXHAUSTED error being surfaced). -/
theorem C3_create_never_rejects (maxSessions ttl now : Int) (newSid : String)
    (pool : List (String × Int)) :
    (newSid, now) ∈ createSession maxSessions ttl now newSid pool ∧
    (maxSessions ≤ 0 → createSession maxSessions ttl now newSid pool = [(newSid, now)]) := by
  constructor
  · simp [createSession]
  · intro hmax
    have hbranch : maxSessions ≤ ((cleanupExpired ttl now pool).length : Int) := by
      have : (0 : Int) ≤ ((cleanupExpired ttl now pool).length : Int) := by positivity
      omega
    simp only [createSession, if_pos hbranch]
    rw [deleteOldestSessions_of_le_length _ _ (by omega) (by omega)]
    rfl

/-- witness for C3 (amended) at capacity 0: the pool [("a", 1), ("b", 2)] is
fully evicted and the new session allocated -/
theorem C3_create_never_rejects_witness :
    ("n", (100 : Int)) ∈ createSession 0 900 100 "n" [("a", 1), ("b", 2)] ∧
    createSession 0 900 100 "n" [("a", 1), ("b", 2)] = [("n", 100)] :=
  ⟨(C3_create_never_rejects 0 900 100 "n" [("a", 1), ("b", 2)]).1,
   (C3_create_never_rejects 0 900 100 "n" [("a", 1), ("b", 2)]).2 (by decide)⟩

/-! ## Claim C1 -/

theorem nodup_fst_cleanupExpired (ttl now : Int) (pool : List (String × Int))
    (h : (pool.map Prod.fst).Nodup) :
    ((cleanupExpired ttl now pool).map Prod.fst).Nodup := by
  unfold cleanupExpired
  split
  · exact h
  · exact h.sublist ((List.filter_sublist pool).map Prod.fst)

theorem deleteOldestSessions_length (k : Int) (p : List (String × Int))
    (hnd : (p.map Prod.fst).Nodup) :
    (deleteOldestSessions k p).length = p.length - k.toNat := by
  by_cases hbr : k ≤ 0 ∨ p = []
  · rw [deleteOldestSessions, if_pos hbr]
    rcases hbr with hk | hp
    · have hz : k.toNat = 0 := by omega
      simp [hz]
    · subst hp; simp
  · rw [deleteOldestSessions, if_neg hbr]
    have hperm : (List.insertionSort lastUsedLE p).Perm p := List.perm_insertionSort lastUsedLE p
    have hndsort : ((List.insertionSort lastUsedLE p).map Prod.fst).Nodup :=
      ((hperm.map Prod.fst).nodup_iff).mpr hnd
    have hsplit := List.take_append_drop k.toNat (List.insertionSort lastUsedLE p)
    have hlenfil :
        (p.filter (fun s =>
          !(decide (s.1 ∈ ((List.insertionSort lastUsedLE p).take k.toNat).map Prod.fst)))).length =
        ((List.insertionSort lastUsedLE p).filter (fun s =>
          !(decide (s.1 ∈ ((List.insertionSort lastUsedLE p).take k.toNat).map Prod.fst)))).length :=
      (hperm.filter _).length_eq.symm
    rw [hlenfil]
    have hsfil : (List.insertionSort lastUsedLE p).filter (fun s =>
          !(decide (s.1 ∈ ((List.insertionSort lastUsedLE p).take k.toNat).map Prod.fst))) =
        ((List.insertionSort lastUsedLE p).take k.toNat).filter (fun s =>
          !(decide (s.1 ∈ ((List.insertionSort lastUsedLE p).take k.toNat).map Prod.fst))) ++
        ((List.insertionSort lastUsedLE p).drop k.toNat).filter (fun s =>
          !(decide (s.1 ∈ ((List.insertionSort lastUsedLE p).take k.toNat).map Prod.fst))) := by
      rw [← List.filter_append, hsplit]
    rw [hsfil]
    have htake : ((List.insertionSort lastUsedLE p).take k.toNat).filter (fun s =>
        !(decide (s.1 ∈ ((List.insertionSort lastUsedLE p).take k.toNat).map Prod.fst))) = [] := by
      rw [List.filter_eq_nil_iff]
      intro s hs h
      rw [Bool.not_eq_true', decide_eq_false_iff_not] at h
      exact h (List.mem_map_of_mem Prod.fst hs)
    have hdrop : ((List.insertionSort lastUsedLE p).drop k.toNat).filter (fun s =>
        !(decide (s.1 ∈ ((List.insertionSort lastUsedLE p).take k.toNat).map Prod.fst))) =
        (List.insertionSort lastUsedLE p).drop k.toNat := by
      rw [List.filter_eq_self]
      intro s hs
      have hmemdrop : s.1 ∈ ((List.insertionSort lastUsedLE p).drop k.toNat).map Prod.fst :=
        List.mem_map_of_mem Prod.fst hs
      have hndapp : (((List.insertionSort lastUsedLE p).take k.toNat).map Prod.fst ++
          ((List.insertionSort lastUsedLE p).drop k.toNat).map Prod.fst).Nodup := by
        rw [← List.map_append, hsplit]; exact hndsort
      have hdisj := List.disjoint_of_nodup_append hndapp
      simp only [Bool.not_eq_true', decide_eq_false_iff_not]
      exact fun hin => hdisj hin hmemdrop
    rw [htake, hdrop, List.nil_append, List.length_drop, hperm.length_eq]

theorem deleteOldest_victim_minimal (p : List (String × Int))
    (j : Nat) (v : String × Int) (rest' : List (String × Int))
    (hdrop : (List.insertionSort lastUsedLE p).drop j = v :: rest') :
    ∀ s ∈ p.filter (fun s =>
        !(decide (s.1 ∈ ((List.insertionSort lastUsedLE p).take j).map Prod.fst))),
      v.2 ≤ s.2 := by
  intro s hs
  rw [List.mem_filter] at hs
  obtain ⟨hsp, hspred⟩ := hs
  simp only [Bool.not_eq_true', decide_eq_false_iff_not] at hspred
  have hperm : (List.insertionSort lastUsedLE p).Perm p := List.perm_insertionSort lastUsedLE p
  have hsort : s ∈ List.insertionSort lastUsedLE p := hperm.mem_iff.mpr hsp
  have hsplit := List.take_append_drop j (List.insertionSort lastUsedLE p)
  rw [← hsplit, List.mem_append] at hsort
  rcases hsort with htk | hdr
  · exact absurd (List.mem_map_of_mem Prod.fst htk) hspred
  · rw [hdrop] at hdr
    have hsorted : List.Sorted lastUsedLE (List.insertionSort lastUsedLE p) :=
      List.sorted_insertionSort lastUsedLE p
    have hsorteddrop : List.Sorted lastUsedLE ((List.insertionSort lastUsedLE p).drop j) :=
      hsorted.sublist (List.drop_sublist j _)
    rw [hdrop, List.sorted_cons] at hsorteddrop
    rcases List.mem_cons.mp hdr with rfl | hrest
    · exact le_refl _
    · exact hsorteddrop.1 s hrest

/-- C1: with a positive capacity N, after any `create` from any pool state
(so in particular along every sequence of creates) the pool holds at most N
sessions; when the post-sweep pool is at or over capacity, the eviction
removes exactly enough sessions to leave one free slot (N-1 remain before the
new session is added); and each evicted session — the j-th element of the
pool sorted by last-used time — has minimal last-used time among the sessions
still present when it is removed (least-recently-used, not oldest-created). -/
theorem C1_create_session_capacity_lru
    (maxSessions ttl now : Int) (newSid : String) (pool : List (String × Int))
    (hmax : 1 ≤ maxSessions) (hnd : (pool.map Prod.fst).Nodup) :
    ((createSession maxSessions ttl now newSid pool).length : Int) ≤ maxSessions ∧
    (maxSessions ≤ ((cleanupExpired ttl now pool).length : Int) →
      ((deleteOldestSessions (((cleanupExpired ttl now pool).length : Int) - maxSessions + 1)
          (cleanupExpired ttl now pool)).length : Int) = maxSessions - 1) ∧
    (∀ (j : Nat) (v : String × Int) (rest' : List (String × Int)),
      (List.insertionSort lastUsedLE (cleanupExpired ttl now pool)).drop j = v :: rest' →
      (j : Int) < ((cleanupExpired ttl now pool).length : Int) - maxSessions + 1 →
      ∀ s ∈ (cleanupExpired ttl now pool).filter (fun s =>
          !(decide (s.1 ∈ ((List.insertionSort lastUsedLE
              (cleanupExpired ttl now pool)).take j).map Prod.fst))),
        v.2 ≤ s.2) := by
  have hnd1 : ((cleanupExpired ttl now pool).map Prod.fst).Nodup :=
    nodup_fst_cleanupExpired ttl now pool hnd
  have hdel := deleteOldestSessions_length
    (((cleanupExpired ttl now pool).length : Int) - maxSessions + 1)
    (cleanupExpired ttl now pool) hnd1
  refine ⟨?_, ?_, ?_⟩
  · simp only [createSession]
    split
    case isTrue hb =>
      rw [List.length_append, hdel]
      simp only [List.length_cons, List.length_nil]
      omega
    case isFalse hb =>
      rw [List.length_append]
      simp only [List.length_cons, List.length_nil]
      push_neg at hb
      omega
  · intro hb
    rw [hdel]
    omega
  · intro j v rest' hdrop hj
    exact deleteOldest_victim_minimal _ j v rest' hdrop

/-- witness for C1 at the spec's scenario (capacity 2, sessions s1 and s2
live, s3 created): the pool stays within capacity and eviction leaves exactly
one free slot -/
theorem C1_create_session_capacity_lru_witness :
    ((createSession 2 900 100 "s3" [("s1", 10), ("s2", 20)]).length : Int) ≤ 2 ∧
    ((deleteOldestSessions
        (((cleanupExpired 900 100 [("s1", 10), ("s2", 20)]).length : Int) - 2 + 1)
        (cleanupExpired 900 100 [("s1", 10), ("s2", 20)])).length : Int) = 2 - 1 :=
  ⟨(C1_create_session_capacity_lru 2 900 100 "s3" [("s1", 10), ("s2", 20)]
      (by decide) (by decide)).1,
   (C1_create_session_capacity_lru 2 900 100 "s3" [("s1", 10), ("s2", 20)]
      (by decide) (by decide)).2.1 (by decide)⟩

/-! ## Claims C4 and C2: dispatcher lemmas -/

theorem exec_mutating_success_state (st : ApiState) (api0 : String) (args : JFields)
    (eng : EngineResult) (hmut : isStructureMutating api0)
    (hsucc : (executeApi st api0 args eng).success = true) :
    (executeApi st api0 args eng).state.cachedIdxToBlock = none ∧
    (executeApi st api0 args eng).state.cachedValueToIdMappings = st.cachedValueToIdMappings := by
  rcases hmut with htrim | htrim | htrim | htrim <;>
    simp only [executeApi, htrim, String.reduceEq, reduceIte] at hsucc ⊢ <;>
    (repeat' split at hsucc) <;>
    (try simp_all [mkOk, mkErr]) <;>
    (try rw [if_neg (by simp_all)]) <;>
    simp_all [mkOk, mkErr]

theorem exec_indexed_no_cache (st : ApiState) (api0 : String) (args : JFields)
    (eng : EngineResult) (hidx : isIndexAddressed api0) (hargs : indexArgsOk api0 args)
    (hc : st.cachedIdxToBlock = none) :
    executeApi st api0 args eng = mkErr st "INVALID_STATE" [] := by
  rcases hidx with htrim | htrim | htrim | htrim
  · obtain ⟨h1, h2, h3⟩ := hargs.1 htrim
    obtain ⟨n, hn⟩ := Option.isSome_iff_exists.mp h1
    simp only [executeApi, htrim, String.reduceEq, reduceIte, hn, h2, h3, hc,
      Bool.not_true, Bool.false_eq_true, if_false]
  · obtain ⟨h1, h2, h3, h4, h5⟩ := hargs.2.1 htrim
    obtain ⟨n1, hn1⟩ := Option.isSome_iff_exists.mp h1
    obtain ⟨n2, hn2⟩ := Option.isSome_iff_exists.mp h2
    cases hplc : placementOf args with
    | obj pfs =>
      simp only [placementField, hplc] at h4 h5
      simp only [executeApi, htrim, String.reduceEq, reduceIte, hn1, hn2, hplc, h4, h5, hc,
        Bool.not_true, Bool.false_eq_true, if_false]
    | null => simp [jIsDict, hplc] at h3
    | bool b => simp [jIsDict, hplc] at h3
    | int n => simp [jIsDict, hplc] at h3
    | str s => simp [jIsDict, hplc] at h3
  · obtain h1 := hargs.2.2.1 htrim
    obtain ⟨n, hn⟩ := Option.isSome_iff_exists.mp h1
    simp only [executeApi, htrim, String.reduceEq, reduceIte, hn, hc]
  · obtain h1 := hargs.2.2.2 htrim
    obtain ⟨n, hn⟩ := Option.isSome_iff_exists.mp h1
    simp only [executeApi, htrim, String.reduceEq, reduceIte, hn, hc]

theorem exec_indexed_not_found (st : ApiState) (api0 : String) (args : JFields)
    (eng : EngineResult) (cache : List (String × String))
    (hidx : isIndexAddressed api0) (hargs : indexArgsOk api0 args)
    (hc : st.cachedIdxToBlock = some cache)
    (hmiss : ∃ n ∈ referencedIndices api0 args, keyMemS cache (toString n) = false) :
    executeApi st api0 args eng = mkErr st "NOT_FOUND" [] := by
  obtain ⟨n, hnref, hkm⟩ := hmiss
  rcases hidx with htrim | htrim | htrim | htrim
  · obtain ⟨h1, h2, h3⟩ := hargs.1 htrim
    obtain ⟨m, hm⟩ := Option.isSome_iff_exists.mp h1
    rw [referencedIndices, if_pos (Or.inl htrim), hm] at hnref
    simp only [Option.toList_some, List.mem_singleton] at hnref
    subst hnref
    simp only [executeApi, htrim, String.reduceEq, reduceIte, hm, h2, h3, hc, hkm,
      Bool.not_true, Bool.false_eq_true, if_false, Bool.not_false, if_true]
  · obtain ⟨h1, h2, h3, h4, h5⟩ := hargs.2.1 htrim
    obtain ⟨n1, hn1⟩ := Option.isSome_iff_exists.mp h1
    obtain ⟨n2, hn2⟩ := Option.isSome_iff_exists.mp h2
    rw [referencedIndices, if_neg (by simp [htrim]), if_neg (by simp [htrim]),
      if_pos htrim, hn1, hn2] at hnref
    cases hplc : placementOf args with
    | obj pfs =>
      simp only [placementField, hplc] at h4 h5
      simp only [Option.toList_some, List.singleton_append, List.mem_cons,
        List.mem_singleton, List.not_mem_nil, or_false] at hnref
      rcases hnref with rfl | rfl
      · simp only [executeApi, htrim, String.reduceEq, reduceIte, hn1, hn2, hplc, h4, h5,
          hc, hkm, Bool.not_true, Bool.false_eq_true, if_false, Bool.not_false, if_true]
      · by_cases hsrc : keyMemS cache (toString n1) = false
        · simp only [executeApi, htrim, String.reduceEq, reduceIte, hn1, hn2, hplc, h4, h5,
            hc, hsrc, Bool.not_true, Bool.false_eq_true, if_false, Bool.not_false, if_true]
        · rw [Bool.not_eq_false] at hsrc
          simp only [executeApi, htrim, String.reduceEq, reduceIte, hn1, hn2, hplc, h4, h5,
            hc, hsrc, hkm, Bool.not_true, Bool.false_eq_true, if_false, Bool.not_false, if_true]
    | null => simp [jIsDict, hplc] at h3
    | bool b => simp [jIsDict, hplc] at h3
    | int n' => simp [jIsDict, hplc] at h3
    | str s => simp [jIsDict, hplc] at h3
  · obtain h1 := hargs.2.2.1 htrim
    obtain ⟨m, hm⟩ := Option.isSome_iff_exists.mp h1
    rw [referencedIndices, if_pos (Or.inr htrim), hm] at hnref
    simp only [Option.toList_some, List.mem_singleton] at hnref
    subst hnref
    simp only [executeApi, htrim, String.reduceEq, reduceIte, hm, hc, hkm,
      Bool.not_true, Bool.false_eq_true, if_false, Bool.not_false, if_true]
  · obtain h1 := hargs.2.2.2 htrim
    obtain ⟨m, hm⟩ := Option.isSome_iff_exists.mp h1
    rw [referencedIndices, if_neg (by simp [htrim]), if_pos htrim, hm] at hnref
    simp only [Option.toList_some, List.mem_singleton] at hnref
    subst hnref
    simp only [executeApi, htrim, String.reduceEq, reduceIte, hm, hc, hkm,
      Bool.not_true, Bool.false_eq_true, if_false, Bool.not_false, if_true]

/-- C4 counterexample: a successful `add_block` with both snapshot caches
populated clears the index-to-block mapping but leaves the auxiliary
value-to-identifier mappings in place — the "whole cached snapshot" is not
invalidated. -/
theorem C4_counterexample :
    (executeApi ⟨some [("1", "blk_a")], some [("score", "var_1")]⟩ "add_block"
      (jfOf [("blockType", JVal.str "motion_movesteps")]) (.ok [] [])).success = true ∧
    (executeApi ⟨some [("1", "blk_a")], some [("score", "var_1")]⟩ "add_block"
      (jfOf [("blockType", JVal.str "motion_movesteps")]) (.ok [] [])).state.cachedIdxToBlock
      = none ∧
    (executeApi ⟨some [("1", "blk_a")], some [("score", "var_1")]⟩ "add_block"
      (jfOf [("blockType", JVal.str "motion_movesteps")]) (.ok [] [])).state.cachedValueToIdMappings
      = some [("score", "var_1")] := by decide

/-- C4 (amended): every structure-mutating composite command, on its success
path, clears the index-to-identifier cache, but leaves the auxiliary
human-readable-value-to-identifier mappings untouched (they persist until the
next describe call overwrites them). -/
theorem C4_mutation_clears_index_cache_only (st : ApiState) (api0 : String)
    (args : JFields) (eng : EngineResult) (hmut : isStructureMutating api0)
    (hsucc : (executeApi st api0 args eng).success = true) :
    (executeApi st api0 args eng).state.cachedIdxToBlock = none ∧
    (executeApi st api0 args eng).state.cachedValueToIdMappings = st.cachedValueToIdMappings :=
  exec_mutating_success_state st api0 args eng hmut hsucc

/-- witness for C4 (amended) at a successful `delete_block` -/
theorem C4_mutation_clears_index_cache_only_witness :
    (executeApi ⟨some [("1", "blk_a")], some [("x", "y")]⟩ "delete_block"
      (jfOf [("blockIndex", JVal.int 1)]) (.ok [] [])).state.cachedIdxToBlock = none ∧
    (executeApi ⟨some [("1", "blk_a")], some [("x", "y")]⟩ "delete_block"
      (jfOf [("blockIndex", JVal.int 1)]) (.ok [] [])).state.cachedValueToIdMappings =
      (⟨some [("1", "blk_a")], some [("x", "y")]⟩ : ApiState).cachedValueToIdMappings :=
  C4_mutation_clears_index_cache_only ⟨some [("1", "blk_a")], some [("x", "y")]⟩
    "delete_block" (jfOf [("blockIndex", JVal.int 1)]) (.ok [] [])
    (by decide) (by decide)

/-- C2: an index-addressed command with valid arguments (a) fails with
INVALID_STATE and dispatches nothing when the index cache is absent, (b)
fails with NOT_FOUND when the cache is present but a referenced 1-based index
is not in the snapshot, and (c) immediately after any successful
structure-mutating command the very next index-addressed command fails with
INVALID_STATE. -/
theorem C2_index_cache_gating (st : ApiState) (api0 : String) (args : JFields)
    (eng : EngineResult) :
    (isIndexAddressed api0 → indexArgsOk api0 args → st.cachedIdxToBlock = none →
      executeApi st api0 args eng = mkErr st "INVALID_STATE" []) ∧
    (∀ cache, isIndexAddressed api0 → indexArgsOk api0 args →
      st.cachedIdxToBlock = some cache →
      (∃ n ∈ referencedIndices api0 args, keyMemS cache (toString n) = false) →
      executeApi st api0 args eng = mkErr st "NOT_FOUND" []) ∧
    (∀ (api1 : String) (args1 : JFields) (eng1 : EngineResult),
      isStructureMutating api0 → (executeApi st api0 args eng).success = true →
      isIndexAddressed api1 → indexArgsOk api1 args1 →
      executeApi (executeApi st api0 args eng).state api1 args1 eng1 =
        mkErr (executeApi st api0 args eng).state "INVALID_STATE" []) :=
  ⟨fun hidx hargs hc => exec_indexed_no_cache st api0 args eng hidx hargs hc,
   fun cache hidx hargs hc hmiss =>
     exec_indexed_not_found st api0 args eng cache hidx hargs hc hmiss,
   fun api1 args1 eng1 hmut hsucc hidx hargs =>
     exec_indexed_no_cache _ api1 args1 eng1 hidx hargs
       (exec_mutating_success_state st api0 args eng hmut hsucc).1⟩

/-- witness for C2: `delete_block` with no snapshot fails INVALID_STATE
without dispatching; `set_block_field` at an index missing from the snapshot
fails NOT_FOUND -/
theorem C2_index_cache_gating_witness :
    executeApi ⟨none, none⟩ "delete_block" (jfOf [("blockIndex", JVal.int 2)]) (.ok [] []) =
      mkErr ⟨none, none⟩ "INVALID_STATE" [] ∧
    executeApi ⟨some [("1", "blk_a")], none⟩ "set_block_field"
      (jfOf [("blockIndex", JVal.int 2), ("fieldName", JVal.str "VARIABLE"),
             ("value", JVal.str "score")]) (.ok [] []) =
      mkErr ⟨some [("1", "blk_a")], none⟩ "NOT_FOUND" [] :=
  ⟨(C2_index_cache_gating ⟨none, none⟩ "delete_block"
      (jfOf [("blockIndex", JVal.int 2)]) (.ok [] [])).1
      (by decide) (by decide) (by decide),
   (C2_index_cache_gating ⟨some [("1", "blk_a")], none⟩ "set_block_field"
      (jfOf [("blockIndex", JVal.int 2), ("fieldName", JVal.str "VARIABLE"),
             ("value", JVal.str "score")]) (.ok [] [])).2.1 [("1", "blk_a")]
      (by decide) (by decide) (by decide) ⟨2, by decide, by decide⟩⟩

/-! ## Claim C9 -/

theorem mem_coveredIndicesFrom (outer : BBox) :
    ∀ (l : List FusedElem) (base i : Nat),
      i ∈ coveredIndicesFrom outer l base ↔
        ∃ j o, l.get? j = some o ∧ i = base + j ∧ bboxCovers outer o.bbox = true
  | [], base, i => by
    simp [coveredIndicesFrom]
  | o :: rest, base, i => by
    simp only [coveredIndicesFrom, List.mem_append]
    constructor
    · intro h
      rcases h with hhd | htl
      · refine ⟨0, o, rfl, ?_, ?_⟩
        · by_cases hcov : bboxCovers outer o.bbox = true
          · rw [if_pos hcov] at hhd
            simp only [List.mem_singleton] at hhd
            omega
          · rw [if_neg hcov] at hhd
            simp at hhd
        · by_cases hcov : bboxCovers outer o.bbox = true
          · exact hcov
          · rw [if_neg hcov] at hhd
            simp at hhd
      · obtain ⟨j, o', hj, hi, hc⟩ := (mem_coveredIndicesFrom outer rest (base + 1) i).mp htl
        exact ⟨j + 1, o', hj, by omega, hc⟩
    · rintro ⟨j, o', hj, rfl, hc⟩
      cases j with
      | zero =>
        cases hj
        left
        rw [if_pos hc]
        simp
      | succ j' =>
        right
        exact (mem_coveredIndicesFrom outer rest (base + 1) (base + (j' + 1))).mpr
          ⟨j', o', hj, by omega, hc⟩

theorem mem_computeCoveredIndices_aux (cfg : FusionConfig) (ocr : List FusedElem) :
    ∀ (doms : List FusedElem) (acc : List Nat) (i : Nat),
      i ∈ doms.foldl
        (fun covered d =>
          if d.etype = "canvas" then covered
          else if shouldHideCovered cfg d then covered ++ findCoveredOcrElements d ocr covered
          else covered) acc ↔
      i ∈ acc ∨ ∃ d ∈ doms, (¬(d.etype = "canvas") ∧ shouldHideCovered cfg d = true) ∧
        i ∈ coveredIndicesFrom d.bbox ocr 0
  | [], acc, i => by simp
  | d :: rest, acc, i => by
    simp only [List.foldl_cons, List.mem_cons]
    by_cases hcv : d.etype = "canvas"
    · rw [if_pos hcv]
      rw [mem_computeCoveredIndices_aux cfg ocr rest acc i]
      constructor
      · rintro (h | ⟨d', hd', hcond, hc⟩)
        · exact Or.inl h
        · exact Or.inr ⟨d', Or.inr hd', hcond, hc⟩
      · rintro (h | ⟨d', hd' | hd', hcond, hc⟩)
        · exact Or.inl h
        · subst hd'; exact absurd hcv hcond.1
        · exact Or.inr ⟨d', hd', hcond, hc⟩
    · rw [if_neg hcv]
      by_cases hsh : shouldHideCovered cfg d = true
      · rw [if_pos hsh]
        rw [mem_computeCoveredIndices_aux cfg ocr rest _ i]
        have hacc : i ∈ acc ++ findCoveredOcrElements d ocr acc ↔
            i ∈ acc ∨ i ∈ coveredIndicesFrom d.bbox ocr 0 := by
          simp only [List.mem_append, findCoveredOcrElements, List.mem_filter,
            Bool.not_eq_true', decide_eq_false_iff_not]
          constructor
          · rintro (h | ⟨hc, _⟩)
            · exact Or.inl h
            · exact Or.inr hc
          · rintro (h | hc)
            · exact Or.inl h
            · by_cases hin : i ∈ acc
              · exact Or.inl hin
              · exact Or.inr ⟨hc, hin⟩
        rw [hacc]
        constructor
        · rintro ((h | hc) | ⟨d', hd', hcond, hc⟩)
          · exact Or.inl h
          · exact Or.inr ⟨d, Or.inl rfl, ⟨hcv, hsh⟩, hc⟩
          · exact Or.inr ⟨d', Or.inr hd', hcond, hc⟩
        · rintro (h | ⟨d', hd' | hd', hcond, hc⟩)
          · exact Or.inl (Or.inl h)
          · subst hd'; exact Or.inl (Or.inr hc)
          · exact Or.inr ⟨d', hd', hcond, hc⟩
      · rw [if_neg hsh]
        rw [mem_computeCoveredIndices_aux cfg ocr rest acc i]
        constructor
        · rintro (h | ⟨d', hd', hcond, hc⟩)
          · exact Or.inl h
          · exact Or.inr ⟨d', Or.inr hd', hcond, hc⟩
        · rintro (h | ⟨d', hd' | hd', hcond, hc⟩)
          · exact Or.inl h
          · subst hd'; exact absurd hcond.2 hsh
          · exact Or.inr ⟨d', hd', hcond, hc⟩

theorem uncoveredOcrFrom_eq_filter (p : FusedElem → Bool) :
    ∀ (l : List FusedElem) (cov : List Nat) (base : Nat),
      (∀ j o, l.get? j = some o → (decide (base + j ∈ cov) = p o)) →
      uncoveredOcrFrom l cov base = (l.filter (fun o => !(p o))).map ocrToTextElement
  | [], cov, base, _ => rfl
  | o :: rest, cov, base, h => by
    have hhd := h 0 o rfl
    rw [Nat.add_zero] at hhd
    have htl : ∀ j o', rest.get? j = some o' → (decide ((base + 1) + j ∈ cov) = p o') := by
      intro j o' hj
      have := h (j + 1) o' hj
      rwa [show base + (j + 1) = base + 1 + j by omega] at this
    simp only [uncoveredOcrFrom, List.filter_cons]
    rw [uncoveredOcrFrom_eq_filter p rest cov (base + 1) htl, hhd]
    cases hp : p o with
    | true => simp
    | false => simp [ocrToTextElement]

theorem covered_contains_eq_any (cfg : FusionConfig) (nd no : List FusedElem)
    (j : Nat) (o : FusedElem) (hj : no.get? j = some o) :
    decide (j ∈ computeCoveredIndices cfg nd no) =
      nd.any (fun d => suppressesElem cfg d o) := by
  rw [Bool.eq_iff_iff, decide_eq_true_eq, List.any_eq_true]
  rw [computeCoveredIndices, mem_computeCoveredIndices_aux cfg no nd [] j]
  simp only [List.not_mem_nil, false_or]
  constructor
  · rintro ⟨d, hd, ⟨hcv, hsh⟩, hc⟩
    obtain ⟨j', o', hj', hjeq, hcov⟩ := (mem_coveredIndicesFrom d.bbox no 0 j).mp hc
    have hj'j : j' = j := by omega
    subst hj'j
    rw [hj] at hj'
    cases hj'
    refine ⟨d, hd, ?_⟩
    simp only [suppressesElem, Bool.and_eq_true, Bool.not_eq_true', decide_eq_false_iff_not]
    exact ⟨⟨hcv, hsh⟩, hcov⟩
  · rintro ⟨d, hd, hs⟩
    simp only [suppressesElem, Bool.and_eq_true, Bool.not_eq_true',
      decide_eq_false_iff_not] at hs
    exact ⟨d, hd, ⟨hs.1.1, hs.1.2⟩,
      (mem_coveredIndicesFrom d.bbox no 0 j).mpr ⟨j, o, hj, by omega, hs.2⟩⟩

/-- C9: with OCR enabled the fusion output is exactly the normalized
structural elements in original order followed by the surviving perceptual
elements retyped as text, where a perceptual element survives iff no
suppressing structural element's box contains its box (non-strict on all four
edges); concretely, a suppressing structural box (0,0,100,100) swallows a
perceptual box (10,10,20,20) (zero perceptual-derived entries) while the same
structural box leaves (200,200,20,20) as exactly one text-retyped entry. -/
theorem C9_fusion_order_and_containment :
    (∀ (cfg : FusionConfig) (dom : List DomElem) (ocr : List OcrElem),
      cfg.enableOcr = true →
      fuseElements cfg dom ocr =
        normalizeDomElements dom ++
        ((normalizeOcrElements cfg.ocrMinConfidence ocr 0).filter
          (fun o => !((normalizeDomElements dom).any (fun d => suppressesElem cfg d o)))).map
          ocrToTextElement) ∧
    ((fuseElements ⟨true, 0, false⟩
        [⟨"d1", ⟨0, 0, 100, 100⟩, "Go", "clickable", ""⟩]
        [⟨10, 10, 20, 20, "hi", 1, "text"⟩]).filter
        (fun e => decide (e.source = "ocr"))).length = 0 ∧
    ((fuseElements ⟨true, 0, false⟩
        [⟨"d1", ⟨0, 0, 100, 100⟩, "Go", "clickable", ""⟩]
        [⟨200, 200, 20, 20, "hi", 1, "text"⟩]).filter
        (fun e => decide (e.source = "ocr"))).length = 1 ∧
    ((fuseElements ⟨true, 0, false⟩
        [⟨"d1", ⟨0, 0, 100, 100⟩, "Go", "clickable", ""⟩]
        [⟨200, 200, 20, 20, "hi", 1, "text"⟩]).filter
        (fun e => decide (e.source = "ocr"))).all (fun e => decide (e.etype = "text")) = true := by
  refine ⟨?_, by decide, by decide, by decide⟩
  intro cfg dom ocr hen
  unfold fuseElements
  rw [hen]
  simp only [Bool.not_true, Bool.false_or]
  by_cases hocr : ocr.isEmpty
  · rw [if_pos hocr]
    have hnil : ocr = [] := List.isEmpty_iff.mp hocr
    subst hnil
    simp [normalizeOcrElements]
  · rw [if_neg hocr]
    congr 1
    apply uncoveredOcrFrom_eq_filter
    intro j o hj
    rw [Nat.zero_add]
    exact covered_contains_eq_any cfg (normalizeDomElements dom)
      (normalizeOcrElements cfg.ocrMinConfidence ocr 0) j o hj

/-- witness for C9 at the concrete suppressing example -/
theorem C9_fusion_order_and_containment_witness :
    fuseElements ⟨true, 0, false⟩
        [⟨"d1", ⟨0, 0, 100, 100⟩, "Go", "clickable", ""⟩]
        [⟨10, 10, 20, 20, "hi", 1, "text"⟩] =
      normalizeDomElements [⟨"d1", ⟨0, 0, 100, 100⟩, "Go", "clickable", ""⟩] ++
      ((normalizeOcrElements 0 [⟨10, 10, 20, 20, "hi", 1, "text"⟩] 0).filter
        (fun o => !((normalizeDomElements [⟨"d1", ⟨0, 0, 100, 100⟩, "Go", "clickable", ""⟩]).any
          (fun d => suppressesElem ⟨true, 0, false⟩ d o)))).map ocrToTextElement :=
  (C9_fusion_order_and_containment).1 ⟨true, 0, false⟩
    [⟨"d1", ⟨0, 0, 100, 100⟩, "Go", "clickable", ""⟩]
    [⟨10, 10, 20, 20, "hi", 1, "text"⟩] (by decide)

/-! ## Claim C8 -/

theorem lt_div_succ_mul (x d : Nat) (hd : 0 < d) : x < (x / d + 1) * d := by
  have h1 := Nat.div_add_mod x d
  have h2 := Nat.mod_lt x hd
  calc x = d * (x / d) + x % d := (Nat.div_add_mod x d).symm
    _ < d * (x / d) + d := by omega
    _ = (x / d + 1) * d := by ring

theorem le_ceilDiv_mul (x d : Nat) (hd : 0 < d) : x ≤ ceilDiv x d * d := by
  unfold ceilDiv
  have h := lt_div_succ_mul (x + d - 1) d hd
  rw [Nat.succ_mul] at h
  omega

theorem ceilDiv_pred_mul_lt (x d : Nat) (hd : 0 < d) (hx : 0 < x) :
    (ceilDiv x d - 1) * d < x := by
  unfold ceilDiv
  have h := Nat.div_mul_le_self (x + d - 1) d
  rw [Nat.sub_mul, one_mul]
  omega

theorem ceilDiv_pos (x d : Nat) (hd : 0 < d) (hx : 0 < x) : 0 < ceilDiv x d := by
  by_contra h0
  have hz : ceilDiv x d = 0 := by omega
  have := le_ceilDiv_mul x d hd
  rw [hz, Nat.zero_mul] at this
  omega

theorem le_csqrt_sq (n : Nat) : n ≤ csqrt n * csqrt n := by
  unfold csqrt
  split
  case isTrue h => omega
  case isFalse h =>
    have hlt := Nat.lt_succ_sqrt n
    rw [Nat.succ_eq_add_one] at hlt
    omega

theorem csqrt_pred_sq_lt (n : Nat) (hn : 0 < n) :
    (csqrt n - 1) * (csqrt n - 1) < n := by
  unfold csqrt
  split
  case isTrue h =>
    have hs : 1 ≤ Nat.sqrt n := by
      rcases Nat.eq_zero_or_pos (Nat.sqrt n) with h0 | h1
      · rw [h0] at h; omega
      · exact h1
    have hlt : (Nat.sqrt n - 1) * (Nat.sqrt n - 1) < Nat.sqrt n * Nat.sqrt n := by
      have h1 : Nat.sqrt n - 1 < Nat.sqrt n := by omega
      calc (Nat.sqrt n - 1) * (Nat.sqrt n - 1) ≤ (Nat.sqrt n - 1) * Nat.sqrt n :=
            Nat.mul_le_mul_left _ (by omega)
        _ < Nat.sqrt n * Nat.sqrt n := (Nat.mul_lt_mul_right (by omega)).mpr h1
    omega
  case isFalse h =>
    have hle := Nat.sqrt_le n
    simp only [Nat.add_sub_cancel]
    omega

theorem csqrt_pos (n : Nat) (hn : 0 < n) : 0 < csqrt n := by
  by_contra h0
  have hz : csqrt n = 0 := by omega
  have := le_csqrt_sq n
  rw [hz] at this
  omega

theorem shrink_bounds (h w : Nat) (hh : 0 < h) (hw : 0 < w)
    (hr1 : h ≤ 200 * w) (hr2 : w ≤ 200 * h) :
    9 ≤ Nat.sqrt (h * maxPixels / (784 * w)) ∧
    9 ≤ Nat.sqrt (w * maxPixels / (784 * h)) ∧
    78400 ≤ 28 * Nat.sqrt (h * maxPixels / (784 * w)) * (28 * Nat.sqrt (w * maxPixels / (784 * h))) ∧
    28 * Nat.sqrt (h * maxPixels / (784 * w)) * (28 * Nat.sqrt (w * maxPixels / (784 * h))) ≤ 12845056 := by
  have hM : maxPixels = 12845056 := by norm_num [maxPixels]
  rw [hM]
  set a := Nat.sqrt (h * 12845056 / (784 * w)) with ha
  set b := Nat.sqrt (w * 12845056 / (784 * h)) with hb
  have hwpos : 0 < 784 * w := by positivity
  have hhpos : 0 < 784 * h := by positivity
  have f1 : a * a * (784 * w) ≤ h * 12845056 := by
    calc a * a * (784 * w) ≤ (h * 12845056 / (784 * w)) * (784 * w) :=
          Nat.mul_le_mul_right _ (Nat.sqrt_le _)
      _ ≤ h * 12845056 := Nat.div_mul_le_self _ _
  have f3 : b * b * (784 * h) ≤ w * 12845056 := by
    calc b * b * (784 * h) ≤ (w * 12845056 / (784 * h)) * (784 * h) :=
          Nat.mul_le_mul_right _ (Nat.sqrt_le _)
      _ ≤ w * 12845056 := Nat.div_mul_le_self _ _
  have f2 : h * 12845056 < (a + 1) * (a + 1) * (784 * w) := by
    have h3 := lt_div_succ_mul (h * 12845056) (784 * w) hwpos
    have h4 := Nat.lt_succ_sqrt (h * 12845056 / (784 * w))
    rw [Nat.succ_eq_add_one, ← ha] at h4
    calc h * 12845056 < (h * 12845056 / (784 * w) + 1) * (784 * w) := h3
      _ ≤ (a + 1) * (a + 1) * (784 * w) := Nat.mul_le_mul_right _ (by omega)
  have f4 : w * 12845056 < (b + 1) * (b + 1) * (784 * h) := by
    have h3 := lt_div_succ_mul (w * 12845056) (784 * h) hhpos
    have h4 := Nat.lt_succ_sqrt (w * 12845056 / (784 * h))
    rw [Nat.succ_eq_add_one, ← hb] at h4
    calc w * 12845056 < (w * 12845056 / (784 * h) + 1) * (784 * h) := h3
      _ ≤ (b + 1) * (b + 1) * (784 * h) := Nat.mul_le_mul_right _ (by omega)
  clear_value a b
  clear ha hb
  have ha9 : 9 ≤ a := by
    by_contra hlt
    push_neg at hlt
    have h7 : (a + 1) * (a + 1) ≤ 81 := by nlinarith
    have h8 : (a + 1) * (a + 1) * (784 * w) ≤ 81 * (784 * w) :=
      Nat.mul_le_mul_right _ h7
    omega
  have hb9 : 9 ≤ b := by
    by_contra hlt
    push_neg at hlt
    have h7 : (b + 1) * (b + 1) ≤ 81 := by nlinarith
    have h8 : (b + 1) * (b + 1) * (784 * h) ≤ 81 * (784 * h) :=
      Nat.mul_le_mul_right _ h7
    omega
  -- upper bound, via the product of f1 and f3 with w*h cancelled
  have F1 : (a : Int) * a * (784 * w) ≤ (h : Int) * 12845056 := by exact_mod_cast f1
  have F3 : (b : Int) * b * (784 * h) ≤ (w : Int) * 12845056 := by exact_mod_cast f3
  have F2 : (h : Int) * 12845056 < ((a : Int) + 1) * ((a : Int) + 1) * (784 * w) := by
    exact_mod_cast f2
  have F4 : (w : Int) * 12845056 < ((b : Int) + 1) * ((b : Int) + 1) * (784 * h) := by
    exact_mod_cast f4
  have hhZ : (0 : Int) < h := by exact_mod_cast hh
  have hwZ : (0 : Int) < w := by exact_mod_cast hw
  have haZ : (0 : Int) ≤ a := Int.natCast_nonneg a
  have hbZ : (0 : Int) ≤ b := Int.natCast_nonneg b
  have hub : (784 : Int) * a * b ≤ 12845056 := by
    have h1 : ((h : Int) * w) * ((784 * a * b) * (784 * a * b)) ≤
        ((h : Int) * w) * (12845056 * 12845056) := by
      calc ((h : Int) * w) * ((784 * a * b) * (784 * a * b))
          = ((a : Int) * a * (784 * w)) * ((b : Int) * b * (784 * h)) := by ring
        _ ≤ ((h : Int) * 12845056) * ((w : Int) * 12845056) := by
            apply mul_le_mul F1 F3 (by positivity) (by positivity)
        _ = ((h : Int) * w) * (12845056 * 12845056) := by ring
    have h2 : ((784 : Int) * a * b) * (784 * a * b) ≤ 12845056 * 12845056 :=
      le_of_mul_le_mul_left h1 (by positivity)
    by_contra hgt
    push_neg at hgt
    have hx : (12845056 : Int) * 12845056 < (784 * a * b) * (784 * a * b) :=
      mul_lt_mul'' hgt hgt (by norm_num) (by norm_num)
    linarith [h2, hx]
  have hlb : (100 : Int) ≤ (a : Int) * b := by
    have h1 : ((h : Int) * w) * (12845056 * 12845056) <
        ((h : Int) * w) * ((784 * ((a : Int) + 1) * ((b : Int) + 1)) *
          (784 * ((a : Int) + 1) * ((b : Int) + 1))) := by
      calc ((h : Int) * w) * (12845056 * 12845056)
          = ((h : Int) * 12845056) * ((w : Int) * 12845056) := by ring
        _ < (((a : Int) + 1) * ((a : Int) + 1) * (784 * w)) *
              (((b : Int) + 1) * ((b : Int) + 1) * (784 * h)) := by
            apply mul_lt_mul'' F2 F4 (by positivity) (by positivity)
        _ = ((h : Int) * w) * ((784 * ((a : Int) + 1) * ((b : Int) + 1)) *
              (784 * ((a : Int) + 1) * ((b : Int) + 1))) := by ring
    have h2 : (12845056 : Int) * 12845056 <
        (784 * ((a : Int) + 1) * ((b : Int) + 1)) *
          (784 * ((a : Int) + 1) * ((b : Int) + 1)) :=
      lt_of_mul_lt_mul_left h1 (by positivity)
    have h3 : (12845056 : Int) < 784 * ((a : Int) + 1) * ((b : Int) + 1) := by
      by_contra hle
      push_neg at hle
      have hx : (784 * ((a : Int) + 1) * ((b : Int) + 1)) *
          (784 * ((a : Int) + 1) * ((b : Int) + 1)) ≤ (12845056 : Int) * 12845056 :=
        mul_le_mul hle hle (by positivity) (by norm_num)
      linarith [h2, hx]
    have h4 : (16384 : Int) < ((a : Int) + 1) * ((b : Int) + 1) := by linarith
    have ha9Z : (9 : Int) ≤ a := by exact_mod_cast ha9
    have hb9Z : (9 : Int) ≤ b := by exact_mod_cast hb9
    nlinarith [h4, mul_nonneg (by linarith : (0 : Int) ≤ (a : Int) - 9)
      (by linarith : (0 : Int) ≤ (b : Int) - 9), hub]
  have hlbN : 100 ≤ a * b := by exact_mod_cast hlb
  have hubN : 784 * (a * b) ≤ 12845056 := by
    have : (784 : Int) * (a * b) ≤ 12845056 := by linarith [hub]
    exact_mod_cast this
  refine ⟨ha9, hb9, ?_, ?_⟩
  · calc (78400 : Nat) = 784 * 100 := by norm_num
      _ ≤ 784 * (a * b) := Nat.mul_le_mul_left _ hlbN
      _ = 28 * a * (28 * b) := by ring
  · calc 28 * a * (28 * b) = 784 * (a * b) := by ring
      _ ≤ 12845056 := hubN

theorem grow_bounds (h w : Nat) (hh : 0 < h) (hw : 0 < w)
    (hr1 : h ≤ 200 * w) (hr2 : w ≤ 200 * h) :
    1 ≤ csqrt (ceilDiv (h * minPixels) (784 * w)) ∧
    1 ≤ csqrt (ceilDiv (w * minPixels) (784 * h)) ∧
    78400 ≤ 28 * csqrt (ceilDiv (h * minPixels) (784 * w)) *
      (28 * csqrt (ceilDiv (w * minPixels) (784 * h))) ∧
    28 * csqrt (ceilDiv (h * minPixels) (784 * w)) *
      (28 * csqrt (ceilDiv (w * minPixels) (784 * h))) ≤ 12845056 := by
  have hm : minPixels = 78400 := by norm_num [minPixels]
  rw [hm]
  have hwpos : 0 < 784 * w := by positivity
  have hhpos : 0 < 784 * h := by positivity
  have hxa : 0 < h * 78400 := by positivity
  have hxb : 0 < w * 78400 := by positivity
  set a := csqrt (ceilDiv (h * 78400) (784 * w)) with ha
  set b := csqrt (ceilDiv (w * 78400) (784 * h)) with hb
  have ha1 : 1 ≤ a := by rw [ha]; exact csqrt_pos _ (ceilDiv_pos _ _ hwpos hxa)
  have hb1 : 1 ≤ b := by rw [hb]; exact csqrt_pos _ (ceilDiv_pos _ _ hhpos hxb)
  have G1 : h * 78400 ≤ a * a * (784 * w) := by
    calc h * 78400 ≤ ceilDiv (h * 78400) (784 * w) * (784 * w) :=
          le_ceilDiv_mul _ _ hwpos
      _ ≤ a * a * (784 * w) := Nat.mul_le_mul_right _ (by rw [ha]; exact le_csqrt_sq _)
  have G1b : w * 78400 ≤ b * b * (784 * h) := by
    calc w * 78400 ≤ ceilDiv (w * 78400) (784 * h) * (784 * h) :=
          le_ceilDiv_mul _ _ hhpos
      _ ≤ b * b * (784 * h) := Nat.mul_le_mul_right _ (by rw [hb]; exact le_csqrt_sq _)
  have G2 : (a - 1) * (a - 1) * (784 * w) < h * 78400 := by
    have hs := csqrt_pred_sq_lt (ceilDiv (h * 78400) (784 * w)) (ceilDiv_pos _ _ hwpos hxa)
    rw [← ha] at hs
    have h5 : (a - 1) * (a - 1) ≤ ceilDiv (h * 78400) (784 * w) - 1 := by omega
    calc (a - 1) * (a - 1) * (784 * w)
        ≤ (ceilDiv (h * 78400) (784 * w) - 1) * (784 * w) := Nat.mul_le_mul_right _ h5
      _ < h * 78400 := ceilDiv_pred_mul_lt _ _ hwpos hxa
  have G2b : (b - 1) * (b - 1) * (784 * h) < w * 78400 := by
    have hs := csqrt_pred_sq_lt (ceilDiv (w * 78400) (784 * h)) (ceilDiv_pos _ _ hhpos hxb)
    rw [← hb] at hs
    have h5 : (b - 1) * (b - 1) ≤ ceilDiv (w * 78400) (784 * h) - 1 := by omega
    calc (b - 1) * (b - 1) * (784 * h)
        ≤ (ceilDiv (w * 78400) (784 * h) - 1) * (784 * h) := Nat.mul_le_mul_right _ h5
      _ < w * 78400 := ceilDiv_pred_mul_lt _ _ hhpos hxb
  clear_value a b
  clear ha hb
  have ha142 : a ≤ 142 := by
    by_contra hgt
    push_neg at hgt
    have h6 : 20164 ≤ (a - 1) * (a - 1) := by
      have h142 : 142 ≤ a - 1 := by omega
      calc (20164 : Nat) = 142 * 142 := by norm_num
        _ ≤ (a - 1) * (a - 1) := Nat.mul_le_mul h142 h142
    have h7 : 20164 * (784 * w) ≤ (a - 1) * (a - 1) * (784 * w) :=
      Nat.mul_le_mul_right _ h6
    omega
  have hb142 : b ≤ 142 := by
    by_contra hgt
    push_neg at hgt
    have h6 : 20164 ≤ (b - 1) * (b - 1) := by
      have h142 : 142 ≤ b - 1 := by omega
      calc (20164 : Nat) = 142 * 142 := by norm_num
        _ ≤ (b - 1) * (b - 1) := Nat.mul_le_mul h142 h142
    have h7 : 20164 * (784 * h) ≤ (b - 1) * (b - 1) * (784 * h) :=
      Nat.mul_le_mul_right _ h6
    omega
  have haz : (0 : Int) ≤ (a : Int) - 1 := by
    have : (1 : Int) ≤ a := by exact_mod_cast ha1
    linarith
  have hbz : (0 : Int) ≤ (b : Int) - 1 := by
    have : (1 : Int) ≤ b := by exact_mod_cast hb1
    linarith
  have GZ2 : ((a : Int) - 1) * ((a : Int) - 1) * (784 * w) < (h : Int) * 78400 := by
    zify [ha1] at G2
    exact G2
  have GZ2b : ((b : Int) - 1) * ((b : Int) - 1) * (784 * h) < (w : Int) * 78400 := by
    zify [hb1] at G2b
    exact G2b
  have GZ1 : (h : Int) * 78400 ≤ (a : Int) * a * (784 * w) := by exact_mod_cast G1
  have GZ1b : (w : Int) * 78400 ≤ (b : Int) * b * (784 * h) := by exact_mod_cast G1b
  have hhZ : (0 : Int) < h := by exact_mod_cast hh
  have hwZ : (0 : Int) < w := by exact_mod_cast hw
  have h99 : ((a : Int) - 1) * ((b : Int) - 1) ≤ 99 := by
    have h1 : ((h : Int) * w) * ((784 * ((a : Int) - 1) * ((b : Int) - 1)) *
        (784 * ((a : Int) - 1) * ((b : Int) - 1))) < ((h : Int) * w) * (78400 * 78400) := by
      calc ((h : Int) * w) * ((784 * ((a : Int) - 1) * ((b : Int) - 1)) *
            (784 * ((a : Int) - 1) * ((b : Int) - 1)))
          = (((a : Int) - 1) * ((a : Int) - 1) * (784 * w)) *
              (((b : Int) - 1) * ((b : Int) - 1) * (784 * h)) := by ring
        _ < ((h : Int) * 78400) * ((w : Int) * 78400) := by
            apply mul_lt_mul'' GZ2 GZ2b
              (mul_nonneg (mul_nonneg haz haz) (by positivity))
              (mul_nonneg (mul_nonneg hbz hbz) (by positivity))
        _ = ((h : Int) * w) * (78400 * 78400) := by ring
    have h2 : (784 * ((a : Int) - 1) * ((b : Int) - 1)) *
        (784 * ((a : Int) - 1) * ((b : Int) - 1)) < 78400 * 78400 :=
      lt_of_mul_lt_mul_left h1 (by positivity)
    have h3 : 784 * ((a : Int) - 1) * ((b : Int) - 1) < 78400 := by
      by_contra hle
      push_neg at hle
      have hx : (78400 : Int) * 78400 ≤ (784 * ((a : Int) - 1) * ((b : Int) - 1)) *
          (784 * ((a : Int) - 1) * ((b : Int) - 1)) :=
        mul_le_mul hle hle (by norm_num) (by linarith [mul_nonneg haz hbz])
      linarith [h2, hx]
    nlinarith [h3]
  have hlowZ : (78400 : Int) ≤ 784 * ((a : Int) * b) := by
    have h1 : ((h : Int) * w) * (78400 * 78400) ≤
        ((h : Int) * w) * ((784 * ((a : Int) * b)) * (784 * ((a : Int) * b))) := by
      calc ((h : Int) * w) * (78400 * 78400)
          = ((h : Int) * 78400) * ((w : Int) * 78400) := by ring
        _ ≤ ((a : Int) * a * (784 * w)) * ((b : Int) * b * (784 * h)) :=
            mul_le_mul GZ1 GZ1b (by positivity) (by positivity)
        _ = ((h : Int) * w) * ((784 * ((a : Int) * b)) * (784 * ((a : Int) * b))) := by ring
    have h2 : (78400 : Int) * 78400 ≤
        (784 * ((a : Int) * b)) * (784 * ((a : Int) * b)) :=
      le_of_mul_le_mul_left h1 (by positivity)
    by_contra hlt
    push_neg at hlt
    have hx : (784 * ((a : Int) * b)) * (784 * ((a : Int) * b)) < 78400 * 78400 :=
      mul_lt_mul'' hlt hlt (by positivity) (by positivity)
    linarith [h2, hx]
  have habZ : (a : Int) * b ≤ 382 := by
    have hexp : (a : Int) * b = ((a : Int) - 1) * ((b : Int) - 1) + a + b - 1 := by ring
    have ha142Z : (a : Int) ≤ 142 := by exact_mod_cast ha142
    have hb142Z : (b : Int) ≤ 142 := by exact_mod_cast hb142
    rw [hexp]
    linarith [h99]
  have hlowN : 78400 ≤ 784 * (a * b) := by exact_mod_cast hlowZ
  have habN : a * b ≤ 382 := by exact_mod_cast habZ
  refine ⟨ha1, hb1, ?_, ?_⟩
  · calc (78400 : Nat) ≤ 784 * (a * b) := hlowN
      _ = 28 * a * (28 * b) := by ring
  · calc 28 * a * (28 * b) = 784 * (a * b) := by ring
      _ ≤ 784 * 382 := Nat.mul_le_mul_left _ habN
      _ ≤ 12845056 := by norm_num

theorem hbar_tile (n : Nat) :
    max 28 (roundByFactor n 28) % 28 = 0 ∧ 28 ≤ max 28 (roundByFactor n 28) := by
  constructor
  · by_cases hle : 28 ≤ roundByFactor n 28
    · have hmax : max 28 (roundByFactor n 28) = roundByFactor n 28 := by omega
      rw [hmax, roundByFactor, Nat.mul_mod_left]
    · have hmax : max 28 (roundByFactor n 28) = 28 := by omega
      rw [hmax]
  · omega

/-- C8: non-positive dimensions and over-ratio inputs are rejected with an
error; for every pair of positive dimensions within the maximum aspect ratio,
smart_resize (factor 28, budgets [78400, 12845056]) returns dimensions that
are positive multiples of the tile factor whose product lies within the
budget window. -/
theorem C8_smart_resize_tile_bounds (height width : Int) :
    ((height ≤ 0 ∨ width ≤ 0) → smartResize height width = .error "Invalid dimensions") ∧
    (0 < height → 0 < width → (200 : Int) * min height width < max height width →
      smartResize height width = .error "Absolute aspect ratio must be smaller than 200") ∧
    (0 < height → 0 < width → max height width ≤ (200 : Int) * min height width →
      ∃ hn wn : Nat, smartResize height width = .ok ((hn : Int), (wn : Int)) ∧
        hn % 28 = 0 ∧ wn % 28 = 0 ∧ 28 ≤ hn ∧ 28 ≤ wn ∧
        78400 ≤ hn * wn ∧ hn * wn ≤ 12845056) := by
  refine ⟨?_, ?_, ?_⟩
  · intro hbad
    simp only [smartResize]
    rw [if_pos hbad]
  · intro hh hw hr
    simp only [smartResize]
    rw [if_neg (by omega)]
    rw [if_pos (by simp only [maxAspect]; omega)]
  · intro hh hw hr
    have hh1 : 0 < height.toNat := by omega
    have hw1 : 0 < width.toNat := by omega
    have hr1 : height.toNat ≤ 200 * width.toNat := by omega
    have hr2 : width.toNat ≤ 200 * height.toNat := by omega
    simp only [smartResize]
    rw [if_neg (by omega)]
    rw [if_neg (by simp only [maxAspect]; omega)]
    by_cases hc1 : maxPixels < max imageFactor (roundByFactor height.toNat imageFactor) *
        max imageFactor (roundByFactor width.toNat imageFactor)
    · rw [if_pos hc1]
      obtain ⟨ha9, hb9, hlow, hup⟩ := shrink_bounds height.toNat width.toNat hh1 hw1 hr1 hr2
      exact ⟨28 * Nat.sqrt (height.toNat * maxPixels / (784 * width.toNat)),
        28 * Nat.sqrt (width.toNat * maxPixels / (784 * height.toNat)),
        rfl, Nat.mul_mod_right 28 _, Nat.mul_mod_right 28 _,
        by omega, by omega, hlow, hup⟩
    · rw [if_neg hc1]
      by_cases hc2 : max imageFactor (roundByFactor height.toNat imageFactor) *
          max imageFactor (roundByFactor width.toNat imageFactor) < minPixels
      · rw [if_pos hc2]
        obtain ⟨ha1, hb1, hlow, hup⟩ := grow_bounds height.toNat width.toNat hh1 hw1 hr1 hr2
        exact ⟨28 * csqrt (ceilDiv (height.toNat * minPixels) (784 * width.toNat)),
          28 * csqrt (ceilDiv (width.toNat * minPixels) (784 * height.toNat)),
          rfl, Nat.mul_mod_right 28 _, Nat.mul_mod_right 28 _,
          by omega, by omega, hlow, hup⟩
      · rw [if_neg hc2]
        push_neg at hc1 hc2
        rw [show minPixels = 78400 by norm_num [minPixels]] at hc2
        rw [show maxPixels = 12845056 by norm_num [maxPixels]] at hc1
        have hf : imageFactor = 28 := rfl
        rw [hf] at hc1 hc2 ⊢
        obtain ⟨hm1, hl1⟩ := hbar_tile height.toNat
        obtain ⟨hm2, hl2⟩ := hbar_tile width.toNat
        exact ⟨max 28 (roundByFactor height.toNat 28),
          max 28 (roundByFactor width.toNat 28),
          rfl, hm1, hm2, hl1, hl2, hc2, hc1⟩

/-- witness for C8: the 1280x720 screen is in the no-scaling branch and all
bounds hold; a non-positive and an over-ratio input are rejected -/
theorem C8_smart_resize_tile_bounds_witness :
    (∃ hn wn : Nat, smartResize 720 1280 = .ok ((hn : Int), (wn : Int)) ∧
      hn % 28 = 0 ∧ wn % 28 = 0 ∧ 28 ≤ hn ∧ 28 ≤ wn ∧
      78400 ≤ hn * wn ∧ hn * wn ≤ 12845056) ∧
    smartResize 0 1280 = .error "Invalid dimensions" ∧
    smartResize 1 300 = .error "Absolute aspect ratio must be smaller than 200" :=
  ⟨(C8_smart_resize_tile_bounds 720 1280).2.2 (by norm_num) (by norm_num) (by norm_num),
   (C8_smart_resize_tile_bounds 0 1280).1 (Or.inl (by norm_num)),
   (C8_smart_resize_tile_bounds 1 300).2.1 (by norm_num) (by norm_num) (by norm_num)⟩
